import Mathlib

/-!
Verification development for the simple-crm venue tracker (src/script.js).

The JavaScript core is shallowly embedded: venue records are association
lists from column name to cell value, the store is a list of records, and
each mutating method of the `SimpleCRM` class is translated into a pure
function that threads the relevant state explicitly.  JavaScript string
primitives (trim, toLowerCase, includes, split, startsWith, replace) are
modelled on `List Char`.
-/

namespace CRM

/-! ### JavaScript string primitives -/

/-- Whitespace characters trimmed by the JavaScript `trim` method
(ASCII whitespace, NBSP, BOM and the Unicode line separators). -/
def jsIsWs (c : Char) : Bool :=
  c == ' ' || c == '\t' || c == '\n' || c == '\r' || c == '\x0b' ||
  c == '\x0c' || c == '\u00A0' || c == '\uFEFF' || c == '\u2028' || c == '\u2029'

/-- Model of `String.prototype.trim`. -/
def jsTrim (s : String) : String :=
  String.mk (((s.toList.dropWhile jsIsWs).reverse.dropWhile jsIsWs).reverse)

/-- Model of `String.prototype.toLowerCase` (ASCII case mapping; every
string the claims exercise is ASCII). -/
def jsToLower (s : String) : String :=
  String.mk (s.toList.map Char.toLower)

/-- Trimmed, lowercased form of a cell value, as in
`(v || '').trim().toLowerCase()`. -/
def trimLower (s : String) : String :=
  jsToLower (jsTrim s)

/-- Helper for `jsIncludes`: does `sub` occur as a contiguous block of `l`. -/
def listContainsSeq (l sub : List Char) : Bool :=
  match l with
  | [] => List.isPrefixOf sub []
  | _ :: rest => List.isPrefixOf sub l || listContainsSeq rest sub

/-- Model of `String.prototype.includes`. -/
def jsIncludes (s sub : String) : Bool :=
  listContainsSeq s.toList sub.toList

/-- Model of `String.prototype.startsWith`. -/
def jsStartsWith (s pre : String) : Bool :=
  List.isPrefixOf pre.toList s.toList

/-- Split a character list at every occurrence of the separator,
keeping empty pieces, as `String.prototype.split` does. -/
def jsSplitList (sep : Char) : List Char → List (List Char)
  | [] => [[]]
  | c :: rest =>
    let r := jsSplitList sep rest
    if c == sep then [] :: r
    else
      match r with
      | h :: t => (c :: h) :: t
      | [] => [[c]]

/-- Model of `String.prototype.split` with a one-character separator. -/
def jsSplit (s : String) (sep : Char) : List String :=
  (jsSplitList sep s.toList).map String.mk

/-! ### Venue records -/

/-- A venue record: an ordered mapping from column name to cell value,
mirroring a plain JavaScript object with string values. -/
abbrev Venue := List (String × String)

/-- Model of `venue[key] || ''`: property access defaulting to the empty
string for a missing key (and fixing the empty string for an empty value). -/
def lookupD (v : Venue) (k : String) : String :=
  ((v.find? (fun p => p.1 == k)).map Prod.snd).getD ""

/-- Model of the assignment `venue[key] = value`: overwrite in place when
the key exists, append otherwise. -/
def setField (v : Venue) (k val : String) : Venue :=
  match v with
  | [] => [(k, val)]
  | (k₀, v₀) :: rest =>
    if k₀ == k then (k₀, val) :: rest else (k₀, v₀) :: setField rest k val

/-- `isDuplicateVenue` from src/script.js: the candidate is a duplicate iff
its trimmed lowercased Venue, City and State are all non-empty and some
existing record agrees on all three. -/
def isDuplicateVenue (venues : List Venue) (newVenue : Venue) : Bool :=
  let newVenueName := trimLower (lookupD newVenue "Venue")
  let newCity := trimLower (lookupD newVenue "City")
  let newState := trimLower (lookupD newVenue "State")
  if newVenueName == "" || newCity == "" || newState == "" then false
  else
    venues.any (fun ex =>
      trimLower (lookupD ex "Venue") == newVenueName &&
      trimLower (lookupD ex "City") == newCity &&
      trimLower (lookupD ex "State") == newState)

/-! ### Claim C1 -/

/-- C1: duplicate detection returns true iff the candidate has non-empty
(trimmed, lowercased) Venue, City and State and some existing record in the
store matches all three after trimming and lowercasing, regardless of any
other field; with any of the three empty it returns false. -/
theorem C1_isDuplicateVenue_iff (venues : List Venue) (cand : Venue) :
    isDuplicateVenue venues cand = true ↔
      (trimLower (lookupD cand "Venue") ≠ "" ∧
       trimLower (lookupD cand "City") ≠ "" ∧
       trimLower (lookupD cand "State") ≠ "" ∧
       ∃ ex ∈ venues,
         trimLower (lookupD ex "Venue") = trimLower (lookupD cand "Venue") ∧
         trimLower (lookupD ex "City") = trimLower (lookupD cand "City") ∧
         trimLower (lookupD ex "State") = trimLower (lookupD cand "State")) := by
  unfold isDuplicateVenue
  by_cases hv : trimLower (lookupD cand "Venue") = ""
  · simp [hv]
  · by_cases hc : trimLower (lookupD cand "City") = ""
    · simp [hv, hc]
    · by_cases hs : trimLower (lookupD cand "State") = ""
      · simp [hv, hc, hs]
      · have hv' : (trimLower (lookupD cand "Venue") == "") = false :=
          beq_eq_false_iff_ne.mpr hv
        have hc' : (trimLower (lookupD cand "City") == "") = false :=
          beq_eq_false_iff_ne.mpr hc
        have hs' : (trimLower (lookupD cand "State") == "") = false :=
          beq_eq_false_iff_ne.mpr hs
        simp [hv, hc, hs, hv', hc', hs', List.any_eq_true, and_assoc]

/-! ### History log -/

/-- One element of a history entry's change list: `{field, oldValue, newValue}`. -/
structure FieldChange where
  field : String
  oldValue : String
  newValue : String
deriving Repr, DecidableEq

/-- A history entry as built by `addHistoryEntry` in src/script.js.  The
JavaScript `id` field (`Date.now() + Math.random()`) is a nondeterministic
fresh label and is not modelled; no claim refers to it. -/
structure HistoryEntry where
  timestamp : String
  action : String
  venueId : String
  venueName : String
  city : String
  state : String
  changes : Option (List FieldChange)
deriving Repr, DecidableEq

/-- `getVenueId` from src/script.js: the derived identity string. -/
def getVenueId (venue : Venue) : String :=
  trimLower (lookupD venue "Venue") ++ "|" ++
  trimLower (lookupD venue "City") ++ "|" ++
  trimLower (lookupD venue "State")

/-- `addHistoryEntry` from src/script.js: builds the entry and `unshift`s it
onto the front of the history array (newest first). -/
def addHistoryEntry (history : List HistoryEntry) (action : String)
    (venue : Venue) (changes : Option (List FieldChange)) (now : String) :
    List HistoryEntry :=
  { timestamp := now
    action := action
    venueId := getVenueId venue
    venueName := if lookupD venue "Venue" == "" then "Unknown Venue"
                 else lookupD venue "Venue"
    city := lookupD venue "City"
    state := lookupD venue "State"
    changes := changes } :: history

/-! ### Import -/

/-- The mutable fields of `SimpleCRM` that the import and mutation claims
are about: the header schema, the venue collection and the history log. -/
structure StoreState where
  headers : List String
  venues : List Venue
  history : List HistoryEntry
deriving Repr, DecidableEq

/-- `headersMatch` from src/script.js: same length and positionally equal. -/
def headersMatch (newHeaders existingHeaders : List String) : Bool :=
  newHeaders.length == existingHeaders.length &&
    (newHeaders.zip existingHeaders).all (fun p => p.1 == p.2)

/-- Build the record for one data row: `venue[this.headers[j]] = values[j] || ''`
for every index of the current headers. -/
def rowToVenue (headers : List String) (values : List String) : Venue :=
  headers.enum.foldl (fun v ji => setField v ji.2 (values.getD ji.1 "")) []

/-- Outcome reported by `importData` (alert messages and the final counts). -/
inductive ImportOutcome where
  | emptyInput
  | needsHeaderAndRow
  | schemaMismatch
  | ok (imported duplicates : Nat)
deriving Repr, DecidableEq

/-- `importData` from src/script.js as a pure state transformer.  The
method returns (via `alert`/`return`) before mutating any state on every
error path; data rows are collected into `newVenues` and appended to
`this.venues` only after the whole loop, and `isDuplicateVenue` is always
consulted against the pre-import `this.venues`. -/
def importData (st : StoreState) (input now : String) :
    StoreState × ImportOutcome :=
  let data := jsTrim input
  if data == "" then (st, .emptyInput)
  else
    let lines := jsSplit data '\n'
    if lines.length < 2 then (st, .needsHeaderAndRow)
    else
      let newHeaders0 := jsSplit (lines.headD "") '\t'
      let newHeaders := if newHeaders0.contains "Last Updated" then newHeaders0
                        else newHeaders0 ++ ["Last Updated"]
      let processRows := fun (headers : List String) =>
        let step := fun (acc : List Venue × Nat × Nat) (line : String) =>
          let line := jsTrim line
          if line == "" then acc
          else
            let venue := setField (rowToVenue headers (jsSplit line '\t'))
              "Last Updated" now
            if isDuplicateVenue st.venues venue then
              (acc.1, acc.2.1, acc.2.2 + 1)
            else
              (acc.1 ++ [venue], acc.2.1 + 1, acc.2.2)
        let res := (lines.drop 1).foldl step ([], 0, 0)
        ({ st with headers := headers, venues := st.venues ++ res.1 },
          ImportOutcome.ok res.2.1 res.2.2)
      if st.headers.isEmpty then processRows newHeaders
      else if headersMatch (newHeaders.filter (fun c => c != "Last Updated"))
          (st.headers.filter (fun c => c != "Last Updated")) then
        processRows st.headers
      else (st, .schemaMismatch)

/-! ### Claim C3 -/

/-- C3: with the header schema already set, an import whose headers
(excluding Last Updated) are not positionally identical to the existing
headers (excluding Last Updated) fails with the schema-mismatch error, and
the venue collection, header schema and history log are all unchanged. -/
theorem C3_schema_mismatch_no_partial_write (st : StoreState) (input now : String)
    (hset : st.headers ≠ [])
    (hdata : jsTrim input ≠ "")
    (hlines : 2 ≤ (jsSplit (jsTrim input) '\n').length)
    (hmismatch :
      headersMatch
        ((let nh := jsSplit ((jsSplit (jsTrim input) '\n').headD "") '\t'
          if nh.contains "Last Updated" then nh else nh ++ ["Last Updated"]).filter
          (fun c => c != "Last Updated"))
        (st.headers.filter (fun c => c != "Last Updated")) = false) :
    importData st input now = (st, .schemaMismatch) := by
  unfold importData
  have h1 : (jsTrim input == "") = false := beq_eq_false_iff_ne.mpr hdata
  simp only [h1, Bool.false_eq_true, if_false]
  have h2 : ¬ ((jsSplit (jsTrim input) '\n').length < 2) := by omega
  simp only [if_neg h2]
  have h3 : st.headers.isEmpty = false := by
    cases hh : st.headers with
    | nil => exact absurd hh hset
    | cons a l => simp [hh]
  simp only [h3, Bool.false_eq_true, if_false, hmismatch]

/-- Witness for C3 at a concrete mismatching import. -/
theorem C3_schema_mismatch_no_partial_write_witness :
    importData ⟨["Venue", "Last Updated"], [], []⟩ "A\nB" "t0" =
      (⟨["Venue", "Last Updated"], [], []⟩, .schemaMismatch) :=
  C3_schema_mismatch_no_partial_write ⟨["Venue", "Last Updated"], [], []⟩
    "A\nB" "t0" (by decide) (by decide) (by decide) (by decide)

/-! ### Claim C2 -/

/-- C2 counterexample: importing the header line Venue City State Status and
two identical data rows (A, Paris, TX, empty Status) into an empty store
yields imported 2 and duplicates 0, not imported 1 and duplicates 1 as the
claim states: `isDuplicateVenue` is checked against `this.venues`, which is
only extended after the whole import loop, so a row duplicating an earlier
row of the same batch is not detected. -/
theorem C2_counterexample :
    (importData ⟨[], [], []⟩
        "Venue\tCity\tState\tStatus\nA\tParis\tTX\t\nA\tParis\tTX\t" "t0").2 =
      .ok 2 0 ∧
    (importData ⟨[], [], []⟩
        "Venue\tCity\tState\tStatus\nA\tParis\tTX\t\nA\tParis\tTX\t" "t0").2 ≠
      .ok 1 1 := by
  exact ⟨by decide, by decide⟩

/-- C2 amended: the two identical rows are both imported (imported 2,
duplicates 0) because duplicate detection during an import compares only
against the records already in the store before the import; a row is
counted as a duplicate exactly when it matches such a pre-existing record,
as the second conjunct shows for a store already holding the venue. -/
theorem C2_amended_batch_duplicates_not_detected :
    (importData ⟨[], [], []⟩
        "Venue\tCity\tState\tStatus\nA\tParis\tTX\t\nA\tParis\tTX\t" "t0").2 =
      .ok 2 0 ∧
    (importData
        ⟨["Venue", "City", "State", "Status", "Last Updated"],
         [[("Venue", "A"), ("City", "Paris"), ("State", "TX"), ("Status", ""),
           ("Last Updated", "t")]], []⟩
        "Venue\tCity\tState\tStatus\nA\tParis\tTX\t" "t1").2 = .ok 0 1 := by
  exact ⟨by decide, by decide⟩

/-! ### Field assignment lemmas -/

/-- Reading a field after `venue[k] = val`: the written key reads back the
value, any other key is untouched. -/
theorem lookupD_setField (v : Venue) (k val k' : String) :
    lookupD (setField v k val) k' = if k' = k then val else lookupD v k' := by
  induction v with
  | nil =>
    by_cases h : k' = k
    · subst h; simp [setField, lookupD, List.find?]
    · have hkk : (k == k') = false :=
        beq_eq_false_iff_ne.mpr (fun hh => h hh.symm)
      simp [setField, lookupD, List.find?, hkk, h]
  | cons p rest ih =>
    obtain ⟨k₀, v₀⟩ := p
    by_cases h0 : k₀ = k
    · subst h0
      by_cases h : k' = k₀
      · subst h; simp [setField, lookupD, List.find?]
      · have hkk : (k₀ == k') = false :=
          beq_eq_false_iff_ne.mpr (fun hh => h hh.symm)
        simp [setField, lookupD, List.find?, hkk, h]
    · have h0' : (k₀ == k) = false := beq_eq_false_iff_ne.mpr h0
      by_cases h : k' = k₀
      · subst h
        have h0'' : ¬ (k' = k) := fun hh => h0 hh
        simp [setField, lookupD, List.find?, h0', h0'']
      · have hkk : (k₀ == k') = false :=
          beq_eq_false_iff_ne.mpr (fun hh => h hh.symm)
        simp only [setField, h0', Bool.false_eq_true, if_false]
        simp only [lookupD, List.find?, hkk]
        exact ih

/-- Model of the loop `allInputs.forEach(input => venue[input.dataset.field]
= input.value)`: fold the submitted (field, value) pairs into the record. -/
def applyForm (venue : Venue) (inputs : List (String × String)) : Venue :=
  inputs.foldl (fun v p => setField v p.1 p.2) venue

/-- If every submitted value equals the record's current value for its
field, applying the form leaves every field read unchanged. -/
theorem lookupD_applyForm_eq (venue : Venue) (inputs : List (String × String))
    (h : ∀ p ∈ inputs, p.2 = lookupD venue p.1) (k : String) :
    lookupD (applyForm venue inputs) k = lookupD venue k := by
  induction inputs generalizing venue with
  | nil => rfl
  | cons p rest ih =>
    obtain ⟨f, val⟩ := p
    have hval : val = lookupD venue f := h (f, val) (List.mem_cons_self _ _)
    have hpt : ∀ k', lookupD (setField venue f val) k' = lookupD venue k' := by
      intro k'
      rw [lookupD_setField]
      by_cases hk : k' = f
      · subst hk; simp [hval]
      · simp [hk]
    have hrest : ∀ p ∈ rest, p.2 = lookupD (setField venue f val) p.1 := by
      intro q hq
      rw [hpt q.1]
      exact h q (List.mem_cons_of_mem _ hq)
    calc lookupD (applyForm (setField venue f val) rest) k
        = lookupD (setField venue f val) k := ih (setField venue f val) hrest
      _ = lookupD venue k := hpt k

/-! ### Edit diff and the edit/add/delete operations -/

/-- `getChangesDescription` from src/script.js: walk the union of the two
records' keys (old record's keys first, then the new ones, first occurrence
kept), record a change wherever the empty-string-normalized values differ,
return null for an empty change list. -/
def getChangesDescription (oldVenue newVenue : Venue) :
    Option (List FieldChange) :=
  let allKeys := (oldVenue.map Prod.fst ++ newVenue.map Prod.fst).eraseDups
  let changes := allKeys.filterMap (fun k =>
    let oldValue := lookupD oldVenue k
    let newValue := lookupD newVenue k
    if oldValue == newValue then none
    else some ⟨k, oldValue, newValue⟩)
  if changes.isEmpty then none else some changes

/-- The diff is empty when old and new read equal at every key. -/
theorem getChangesDescription_eq_none (oldVenue newVenue : Venue)
    (h : ∀ k, lookupD newVenue k = lookupD oldVenue k) :
    getChangesDescription oldVenue newVenue = none := by
  unfold getChangesDescription
  have : ∀ k ∈ (oldVenue.map Prod.fst ++ newVenue.map Prod.fst).eraseDups,
      (if (lookupD oldVenue k == lookupD newVenue k) = true then none
       else some (FieldChange.mk k (lookupD oldVenue k) (lookupD newVenue k))) =
        none := by
    intro k _
    simp [h k]
  simp only [List.filterMap_eq_nil_iff.mpr this, List.isEmpty_nil, if_true]

/-- The `currentEditIndex === -1` branch of `saveEdit` in src/script.js:
fill the fresh record from the form inputs, push it, append one Add
history entry. -/
def saveEditNew (tempNewVenue : Venue) (inputs : List (String × String))
    (now : String) (venues : List Venue) (history : List HistoryEntry) :
    List Venue × List HistoryEntry :=
  let venue := applyForm tempNewVenue inputs
  (venues ++ [venue], addHistoryEntry history "Add" venue none now)

/-- The value shown by the read-only Last Updated input that
`populateGeneralForm` (src/script.js) appends whenever the schema has a
Last Updated column: the empty string for an empty Last Updated, otherwise
the timestamp rendered through `new Date(...).toLocaleString()`, modelled
by the environment's rendering function `render` (the locale rendering of
a date is never the empty string). -/
def lastUpdatedDisplay (render : String → String) (venue : Venue) : String :=
  if lookupD venue "Last Updated" == "" then ""
  else render (lookupD venue "Last Updated")

/-- The `allInputs` sequence `saveEdit` collects from the four forms: the
general-form field inputs, then — whenever the schema has a Last Updated
column (`hasLU`) — the field-less read-only Last Updated display input
appended by `populateGeneralForm` without setting `dataset.field`, so the
write `venue[input.dataset.field] = input.value` coerces the key
`undefined` to the string "undefined" and stores the displayed value
`disp` there, then the venue/booking/contact-form inputs. -/
def saveEditAllInputs (fieldInputs : List (String × String)) (hasLU : Bool)
    (disp : String) (restInputs : List (String × String)) :
    List (String × String) :=
  fieldInputs ++ (if hasLU then [("undefined", disp)] else []) ++ restInputs

/-- The existing-venue branch of `saveEdit` in src/script.js: overwrite the
record with every collected input — including, when the schema has a Last
Updated column, the field-less read-only display input written to the key
"undefined" — diff against the pre-edit snapshot, and only when the diff
is non-empty stamp Last Updated and append one Edit entry. -/
def saveEditExisting (venue : Venue) (fieldInputs : List (String × String))
    (hasLU : Bool) (disp : String) (restInputs : List (String × String))
    (now : String) (history : List HistoryEntry) :
    Venue × List HistoryEntry :=
  let updated :=
    applyForm venue (saveEditAllInputs fieldInputs hasLU disp restInputs)
  match getChangesDescription venue updated with
  | some changes =>
    let stamped := setField updated "Last Updated" now
    (stamped, addHistoryEntry history "Edit" stamped (some changes) now)
  | none => (updated, history)

/-- `deleteRow` from src/script.js, after the user confirms: append one
Delete history entry built from the still-present record, then remove the
record.  The index is into the venue collection; the method is only ever
invoked with a valid index. -/
def deleteRow (venues : List Venue) (idx : Nat) (now : String)
    (history : List HistoryEntry) : List Venue × List HistoryEntry :=
  match venues.get? idx with
  | some venue => (venues.eraseIdx idx, addHistoryEntry history "Delete" venue none now)
  | none => (venues, history)

/-! ### Status pipeline -/

/-- `moveToNextStage` from src/script.js: find the current stage by
substring containment in the order CANVAS, FOLLOW-UP, BOOKED, BOOK-AGAIN
(first match wins), set Status to the next stage token (BOOK-AGAIN wraps to
CANVAS), stamp Last Updated and append one Edit history entry; when no
token matches, do nothing. -/
def moveToNextStage (venue : Venue) (now : String)
    (history : List HistoryEntry) : Venue × List HistoryEntry :=
  let currentStatus := lookupD venue "Status"
  let newStatus :=
    if jsIncludes currentStatus "CANVAS" then "FOLLOW-UP"
    else if jsIncludes currentStatus "FOLLOW-UP" then "BOOKED"
    else if jsIncludes currentStatus "BOOKED" then "BOOK-AGAIN"
    else if jsIncludes currentStatus "BOOK-AGAIN" then "CANVAS"
    else ""
  if newStatus == "" then (venue, history)
  else
    let venue' := setField (setField venue "Status" newStatus) "Last Updated" now
    (venue',
      addHistoryEntry history "Edit" venue'
        (some [⟨"Status", currentStatus, newStatus⟩]) now)

/-- The Status value produced by one `moveToNextStage` step, as a function
of the old Status value. -/
def nextStatus (s : String) : String :=
  if jsIncludes s "CANVAS" then "FOLLOW-UP"
  else if jsIncludes s "FOLLOW-UP" then "BOOKED"
  else if jsIncludes s "BOOKED" then "BOOK-AGAIN"
  else if jsIncludes s "BOOK-AGAIN" then "CANVAS"
  else s

/-- After a `moveToNextStage` step the record's Status reads `nextStatus`
of the old Status. -/
theorem status_moveToNextStage (venue : Venue) (now : String)
    (history : List HistoryEntry) :
    lookupD (moveToNextStage venue now history).1 "Status" =
      nextStatus (lookupD venue "Status") := by
  unfold moveToNextStage nextStatus
  by_cases h1 : jsIncludes (lookupD venue "Status") "CANVAS" = true
  · simp [h1, lookupD_setField]
  · by_cases h2 : jsIncludes (lookupD venue "Status") "FOLLOW-UP" = true
    · simp [h1, h2, lookupD_setField]
    · by_cases h3 : jsIncludes (lookupD venue "Status") "BOOKED" = true
      · simp [h1, h2, h3, lookupD_setField]
      · by_cases h4 : jsIncludes (lookupD venue "Status") "BOOK-AGAIN" = true
        · simp [h1, h2, h3, h4, lookupD_setField]
        · simp [h1, h2, h3, h4]

/-! ### Claim C4 -/

/-- C4 counterexample, refuting the no-change-edit clause: a record whose
Last Updated is non-empty is edited without touching any field — every
real field input echoes the stored value and the read-only display input
shows the (non-empty) locale rendering of Last Updated.  Because
`saveEdit` also writes that field-less input's value to the key
"undefined", the diff is non-empty, so one Edit history entry is appended
and Last Updated is restamped, where the claim promises no entry and an
unchanged timestamp. -/
theorem C4_counterexample :
    (∀ p ∈ ([("Venue", "A")] : List (String × String)),
      p.2 = lookupD [("Venue", "A"), ("Last Updated", "2024-01-02T03:04:05Z")]
        p.1) ∧
    lastUpdatedDisplay (fun _ => "1/2/2024, 3:04:05 AM")
      [("Venue", "A"), ("Last Updated", "2024-01-02T03:04:05Z")] =
      "1/2/2024, 3:04:05 AM" ∧
    (saveEditExisting [("Venue", "A"), ("Last Updated", "2024-01-02T03:04:05Z")]
        [("Venue", "A")] true "1/2/2024, 3:04:05 AM" []
        "2024-06-07T08:09:10Z" []).2.length = 1 ∧
    lookupD (saveEditExisting
        [("Venue", "A"), ("Last Updated", "2024-01-02T03:04:05Z")]
        [("Venue", "A")] true "1/2/2024, 3:04:05 AM" []
        "2024-06-07T08:09:10Z" []).1 "Last Updated" = "2024-06-07T08:09:10Z" ∧
    ("2024-06-07T08:09:10Z" : String) ≠ "2024-01-02T03:04:05Z" := by
  decide

/-- C4 (amended): every Add, Edit and Delete mutation prepends exactly one
history entry (newest first); an Edit whose collected inputs produce a
non-empty diff appends one Edit entry and stamps Last Updated; and an Edit
whose submitted field values all equal the old values
(empty-string-normalized) appends no history entry and leaves Last Updated
unchanged provided the read-only display input's value equals what the
record already stores under the key "undefined" — with a Last Updated
column present this holds when Last Updated is empty (both read ""), while
a no-change edit of a record with a non-empty, not-yet-copied Last Updated
instead produces the "undefined" diff of the counterexample. -/
theorem C4_amended_one_history_entry_per_mutation :
    (∀ (tempNewVenue : Venue) (inputs : List (String × String))
        (now : String) (venues : List Venue) (history : List HistoryEntry),
      ∃ e : HistoryEntry,
        (saveEditNew tempNewVenue inputs now venues history).2 = e :: history ∧
        e.action = "Add") ∧
    (∀ (venues : List Venue) (idx : Nat) (now : String)
        (history : List HistoryEntry), idx < venues.length →
      ∃ e : HistoryEntry,
        (deleteRow venues idx now history).2 = e :: history ∧
        e.action = "Delete") ∧
    (∀ (venue : Venue) (fieldInputs restInputs : List (String × String))
        (hasLU : Bool) (disp now : String)
        (history : List HistoryEntry) (changes : List FieldChange),
      getChangesDescription venue
          (applyForm venue (saveEditAllInputs fieldInputs hasLU disp
            restInputs)) = some changes →
      ∃ e : HistoryEntry,
        (saveEditExisting venue fieldInputs hasLU disp restInputs now
            history).2 = e :: history ∧
        e.action = "Edit" ∧
        lookupD (saveEditExisting venue fieldInputs hasLU disp restInputs now
            history).1 "Last Updated" = now) ∧
    (∀ (venue : Venue) (fieldInputs restInputs : List (String × String))
        (hasLU : Bool) (disp now : String) (history : List HistoryEntry),
      (∀ p ∈ fieldInputs ++ restInputs, p.2 = lookupD venue p.1) →
      (hasLU = true → disp = lookupD venue "undefined") →
      (saveEditExisting venue fieldInputs hasLU disp restInputs now
          history).2 = history ∧
      lookupD (saveEditExisting venue fieldInputs hasLU disp restInputs now
          history).1 "Last Updated" = lookupD venue "Last Updated") := by
  refine ⟨?_, ?_, ?_, ?_⟩
  · intro tempNewVenue inputs now venues history
    exact ⟨_, rfl, rfl⟩
  · intro venues idx now history hidx
    have hget : venues.get? idx = some (venues.get ⟨idx, hidx⟩) :=
      List.get?_eq_get hidx
    unfold deleteRow
    rw [hget]
    exact ⟨_, rfl, rfl⟩
  · intro venue fieldInputs restInputs hasLU disp now history changes hchanges
    unfold saveEditExisting
    simp only [hchanges]
    exact ⟨_, rfl, rfl, by simp [lookupD_setField]⟩
  · intro venue fieldInputs restInputs hasLU disp now history hsame hdisp
    have hall : ∀ p ∈ saveEditAllInputs fieldInputs hasLU disp restInputs,
        p.2 = lookupD venue p.1 := by
      intro p hp
      unfold saveEditAllInputs at hp
      rcases List.mem_append.mp hp with hp12 | hpr
      · rcases List.mem_append.mp hp12 with hp1 | hpm
        · exact hsame p (List.mem_append.mpr (Or.inl hp1))
        · by_cases hLU : hasLU = true
          · rw [if_pos hLU] at hpm
            have hpe : p = ("undefined", disp) := by simpa using hpm
            rw [hpe]
            exact hdisp hLU
          · rw [if_neg hLU] at hpm
            simp at hpm
      · exact hsame p (List.mem_append.mpr (Or.inr hpr))
    have hpt : ∀ k,
        lookupD (applyForm venue
          (saveEditAllInputs fieldInputs hasLU disp restInputs)) k =
          lookupD venue k :=
      lookupD_applyForm_eq venue _ hall
    have hnone : getChangesDescription venue
        (applyForm venue (saveEditAllInputs fieldInputs hasLU disp
          restInputs)) = none :=
      getChangesDescription_eq_none venue _ hpt
    unfold saveEditExisting
    simp only [hnone]
    exact ⟨trivial, hpt "Last Updated"⟩

/-- Witness for the amended C4 at concrete mutations: an add, a delete of
index 0, an edit changing the Venue field of a record without a Last
Updated value (display input reads ""), and a no-change edit of the same
record (every field echoed, display "" matching the empty stored
"undefined" value). -/
theorem C4_amended_one_history_entry_per_mutation_witness :
    (∃ e : HistoryEntry,
      (saveEditNew [("Venue", "A")] [] "t" [] []).2 = e :: [] ∧
      e.action = "Add") ∧
    (∃ e : HistoryEntry,
      (deleteRow [[("Venue", "A")]] 0 "t" []).2 = e :: [] ∧
      e.action = "Delete") ∧
    (∃ e : HistoryEntry,
      (saveEditExisting [("Venue", "A")] [("Venue", "B")] true "" [] "t"
          []).2 = e :: [] ∧
      e.action = "Edit" ∧
      lookupD (saveEditExisting [("Venue", "A")] [("Venue", "B")] true "" []
          "t" []).1 "Last Updated" = "t") ∧
    ((saveEditExisting [("Venue", "A")] [("Venue", "A")] true "" [] "t"
        []).2 = [] ∧
      lookupD (saveEditExisting [("Venue", "A")] [("Venue", "A")] true "" []
          "t" []).1 "Last Updated" = lookupD [("Venue", "A")] "Last Updated") :=
  ⟨C4_amended_one_history_entry_per_mutation.1 [("Venue", "A")] [] "t" [] [],
   C4_amended_one_history_entry_per_mutation.2.1 [[("Venue", "A")]] 0 "t" []
     (by decide),
   C4_amended_one_history_entry_per_mutation.2.2.1 [("Venue", "A")]
     [("Venue", "B")] [] true "" "t" [] [⟨"Venue", "A", "B"⟩] (by decide),
   C4_amended_one_history_entry_per_mutation.2.2.2 [("Venue", "A")]
     [("Venue", "A")] [] true "" "t" [] (by decide) (by decide)⟩

/-! ### Claim C5 -/

/-- C5: `moveToNextStage` determines the stage by substring containment of
CANVAS, FOLLOW-UP, BOOKED, BOOK-AGAIN in that order (first match wins),
sets Status to exactly the next stage token with BOOK-AGAIN wrapping to
CANVAS, is a no-op when no token matches, and four advances starting from
Status CANVAS come back to a Status containing CANVAS. -/
theorem C5_status_pipeline :
    (∀ (venue : Venue) (now : String) (history : List HistoryEntry),
      (jsIncludes (lookupD venue "Status") "CANVAS" = true →
        lookupD (moveToNextStage venue now history).1 "Status" = "FOLLOW-UP") ∧
      (jsIncludes (lookupD venue "Status") "CANVAS" = false →
        jsIncludes (lookupD venue "Status") "FOLLOW-UP" = true →
        lookupD (moveToNextStage venue now history).1 "Status" = "BOOKED") ∧
      (jsIncludes (lookupD venue "Status") "CANVAS" = false →
        jsIncludes (lookupD venue "Status") "FOLLOW-UP" = false →
        jsIncludes (lookupD venue "Status") "BOOKED" = true →
        lookupD (moveToNextStage venue now history).1 "Status" = "BOOK-AGAIN") ∧
      (jsIncludes (lookupD venue "Status") "CANVAS" = false →
        jsIncludes (lookupD venue "Status") "FOLLOW-UP" = false →
        jsIncludes (lookupD venue "Status") "BOOKED" = false →
        jsIncludes (lookupD venue "Status") "BOOK-AGAIN" = true →
        lookupD (moveToNextStage venue now history).1 "Status" = "CANVAS") ∧
      (jsIncludes (lookupD venue "Status") "CANVAS" = false →
        jsIncludes (lookupD venue "Status") "FOLLOW-UP" = false →
        jsIncludes (lookupD venue "Status") "BOOKED" = false →
        jsIncludes (lookupD venue "Status") "BOOK-AGAIN" = false →
        moveToNextStage venue now history = (venue, history))) ∧
    (∀ (venue : Venue) (t1 t2 t3 t4 : String) (h₀ : List HistoryEntry),
      lookupD venue "Status" = "CANVAS" →
      jsIncludes
        (lookupD
          (moveToNextStage
            (moveToNextStage
              (moveToNextStage (moveToNextStage venue t1 h₀).1 t2
                (moveToNextStage venue t1 h₀).2).1 t3
              (moveToNextStage
                (moveToNextStage venue t1 h₀).1 t2
                (moveToNextStage venue t1 h₀).2).2).1 t4
            (moveToNextStage
              (moveToNextStage
                (moveToNextStage venue t1 h₀).1 t2
                (moveToNextStage venue t1 h₀).2).1 t3
              (moveToNextStage
                (moveToNextStage venue t1 h₀).1 t2
                (moveToNextStage venue t1 h₀).2).2).2).1 "Status")
        "CANVAS" = true) := by
  constructor
  · intro venue now history
    refine ⟨?_, ?_, ?_, ?_, ?_⟩
    · intro h1
      rw [status_moveToNextStage]
      unfold nextStatus
      rw [h1]
      rfl
    · intro h1 h2
      rw [status_moveToNextStage]
      unfold nextStatus
      rw [h1, h2]
      rfl
    · intro h1 h2 h3
      rw [status_moveToNextStage]
      unfold nextStatus
      rw [h1, h2, h3]
      rfl
    · intro h1 h2 h3 h4
      rw [status_moveToNextStage]
      unfold nextStatus
      rw [h1, h2, h3, h4]
      rfl
    · intro h1 h2 h3 h4
      unfold moveToNextStage
      simp only [h1, h2, h3, h4, Bool.false_eq_true, if_false]
      rfl
  · intro venue t1 t2 t3 t4 h₀ hst
    have e1 : lookupD (moveToNextStage venue t1 h₀).1 "Status" = "FOLLOW-UP" := by
      rw [status_moveToNextStage, hst]; rfl
    have e2 : lookupD (moveToNextStage (moveToNextStage venue t1 h₀).1 t2
        (moveToNextStage venue t1 h₀).2).1 "Status" = "BOOKED" := by
      rw [status_moveToNextStage, e1]; rfl
    have e3 : lookupD (moveToNextStage
        (moveToNextStage (moveToNextStage venue t1 h₀).1 t2
          (moveToNextStage venue t1 h₀).2).1 t3
        (moveToNextStage (moveToNextStage venue t1 h₀).1 t2
          (moveToNextStage venue t1 h₀).2).2).1 "Status" = "BOOK-AGAIN" := by
      rw [status_moveToNextStage, e2]; rfl
    rw [status_moveToNextStage, e3]
    rfl

/-- Witness for C5: the stage characterization at concrete Status values
and the four-step cycle from a concrete CANVAS venue. -/
theorem C5_status_pipeline_witness :
    lookupD (moveToNextStage [("Status", "CANVAS")] "t" []).1 "Status" =
      "FOLLOW-UP" ∧
    lookupD (moveToNextStage [("Status", "FOLLOW-UP")] "t" []).1 "Status" =
      "BOOKED" ∧
    lookupD (moveToNextStage [("Status", "BOOKED")] "t" []).1 "Status" =
      "BOOK-AGAIN" ∧
    lookupD (moveToNextStage [("Status", "BOOK-AGAIN")] "t" []).1 "Status" =
      "CANVAS" ∧
    moveToNextStage [("Status", "other")] "t" [] = ([("Status", "other")], []) ∧
    jsIncludes
      (lookupD
        (moveToNextStage
          (moveToNextStage
            (moveToNextStage
              (moveToNextStage [("Status", "CANVAS")] "a" []).1 "b"
              (moveToNextStage [("Status", "CANVAS")] "a" []).2).1 "c"
            (moveToNextStage
              (moveToNextStage [("Status", "CANVAS")] "a" []).1 "b"
              (moveToNextStage [("Status", "CANVAS")] "a" []).2).2).1 "d"
          (moveToNextStage
            (moveToNextStage
              (moveToNextStage [("Status", "CANVAS")] "a" []).1 "b"
              (moveToNextStage [("Status", "CANVAS")] "a" []).2).1 "c"
            (moveToNextStage
              (moveToNextStage [("Status", "CANVAS")] "a" []).1 "b"
              (moveToNextStage [("Status", "CANVAS")] "a" []).2).2).2).1
        "Status") "CANVAS" = true :=
  ⟨(C5_status_pipeline.1 [("Status", "CANVAS")] "t" []).1 (by decide),
   (C5_status_pipeline.1 [("Status", "FOLLOW-UP")] "t" []).2.1 (by decide)
     (by decide),
   (C5_status_pipeline.1 [("Status", "BOOKED")] "t" []).2.2.1 (by decide)
     (by decide) (by decide),
   (C5_status_pipeline.1 [("Status", "BOOK-AGAIN")] "t" []).2.2.2.1 (by decide)
     (by decide) (by decide) (by decide),
   (C5_status_pipeline.1 [("Status", "other")] "t" []).2.2.2.2 (by decide)
     (by decide) (by decide) (by decide),
   C5_status_pipeline.2 [("Status", "CANVAS")] "a" "b" "c" "d" [] (by decide)⟩

/-! ### Filtering -/

/-- A string lowercases to the empty string only if it is empty. -/
theorem jsToLower_eq_empty_iff (s : String) : jsToLower s = "" ↔ s = "" := by
  cases s with
  | mk l => simp [jsToLower, String.ext_iff]

/-- A character list is its own string's list. -/
theorem toList_eq_nil_iff (s : String) : s.toList = [] ↔ s = "" := by
  cases s with
  | mk l => simp [String.toList, String.ext_iff]

/-- The empty string contains only the empty substring. -/
theorem jsIncludes_empty_left (sub : String) :
    jsIncludes "" sub = true ↔ sub = "" := by
  have h : ("" : String).toList = [] := rfl
  rw [jsIncludes, h]
  unfold listContainsSeq
  rw [List.isPrefixOf_iff_prefix, List.prefix_nil, toList_eq_nil_iff]

/-- `applyFilters` from src/script.js (the part that computes
`this.filteredVenues`): early exit copying all venues when no filter is
active, otherwise keep a record iff the Status, Region and Type
set-membership checks and the free-text check all pass.  Each set check
requires the cell value to be truthy (non-empty) and contained in the
non-empty allow-list; the text check lowercases the query and matches any
truthy cell value by lowercased containment. -/
def applyFilters (venues : List Venue)
    (statusFilters regionFilters typeFilters : List String)
    (searchInput : String) : List Venue :=
  if statusFilters.isEmpty && regionFilters.isEmpty && typeFilters.isEmpty &&
      (jsToLower searchInput == "") then
    venues
  else
    venues.filter (fun venue =>
      (statusFilters.isEmpty ||
        (!(lookupD venue "Status" == "") &&
          statusFilters.contains (lookupD venue "Status"))) &&
      (regionFilters.isEmpty ||
        (!(lookupD venue "Region" == "") &&
          regionFilters.contains (lookupD venue "Region"))) &&
      (typeFilters.isEmpty ||
        (!(lookupD venue "Type" == "") &&
          typeFilters.contains (lookupD venue "Type"))) &&
      ((jsToLower searchInput == "") ||
        venue.any (fun p =>
          !(p.2 == "") && jsIncludes (jsToLower p.2) (jsToLower searchInput))))

/-- The filter pass predicate exactly as claim C8 words it: a set filter
passes when its allow-set is empty or the record's value is a member of the
non-empty allow-set; the free-text filter passes when the query is empty or
some cell value contains the query case-insensitively. -/
def passesFiltersClaim (statusFilters regionFilters typeFilters : List String)
    (query : String) (venue : Venue) : Prop :=
  (statusFilters = [] ∨ lookupD venue "Status" ∈ statusFilters) ∧
  (regionFilters = [] ∨ lookupD venue "Region" ∈ regionFilters) ∧
  (typeFilters = [] ∨ lookupD venue "Type" ∈ typeFilters) ∧
  (query = "" ∨ ∃ p ∈ venue, jsIncludes (jsToLower p.2) (jsToLower query) = true)

/-- The filter pass predicate of the amended claim: as `passesFiltersClaim`,
but a non-empty allow-set additionally requires the record's value to be
non-empty. -/
def passesFiltersAmended (statusFilters regionFilters typeFilters : List String)
    (query : String) (venue : Venue) : Prop :=
  (statusFilters = [] ∨
    (lookupD venue "Status" ≠ "" ∧ lookupD venue "Status" ∈ statusFilters)) ∧
  (regionFilters = [] ∨
    (lookupD venue "Region" ≠ "" ∧ lookupD venue "Region" ∈ regionFilters)) ∧
  (typeFilters = [] ∨
    (lookupD venue "Type" ≠ "" ∧ lookupD venue "Type" ∈ typeFilters)) ∧
  (query = "" ∨ ∃ p ∈ venue, jsIncludes (jsToLower p.2) (jsToLower query) = true)

instance (sf rf tf : List String) (q : String) (v : Venue) :
    Decidable (passesFiltersAmended sf rf tf q v) := by
  unfold passesFiltersAmended
  infer_instance

instance (sf rf tf : List String) (q : String) (v : Venue) :
    Decidable (passesFiltersClaim sf rf tf q v) := by
  unfold passesFiltersClaim
  infer_instance

/-- One conjunct of the code's filter line as a proposition: the set
filter check on one column. -/
theorem set_filter_conjunct_iff (allow : List String) (value : String) :
    (allow.isEmpty || (!(value == "") && allow.contains value)) = true ↔
      (allow = [] ∨ (value ≠ "" ∧ value ∈ allow)) := by
  simp only [Bool.or_eq_true, Bool.and_eq_true, List.isEmpty_iff,
    Bool.not_eq_true', beq_eq_false_iff_ne, List.elem_iff]

/-- The free-text conjunct of the code's filter line as a proposition:
requiring the matching cell to be non-empty changes nothing, because a
non-empty query is never contained in an empty cell. -/
theorem text_filter_conjunct_iff (q : String) (v : Venue) :
    ((jsToLower q == "") ||
      v.any (fun p => !(p.2 == "") && jsIncludes (jsToLower p.2) (jsToLower q)))
        = true ↔
      (q = "" ∨ ∃ p ∈ v, jsIncludes (jsToLower p.2) (jsToLower q) = true) := by
  simp only [Bool.or_eq_true, Bool.and_eq_true, beq_iff_eq,
    Bool.not_eq_true', beq_eq_false_iff_ne, List.any_eq_true]
  constructor
  · rintro (h | ⟨p, hp, _, hincl⟩)
    · exact Or.inl ((jsToLower_eq_empty_iff q).mp h)
    · exact Or.inr ⟨p, hp, hincl⟩
  · rintro (h | ⟨p, hp, hincl⟩)
    · exact Or.inl (by rw [h]; rfl)
    · by_cases hempty : p.2 = ""
      · left
        rw [hempty] at hincl
        have h2 : jsIncludes "" (jsToLower q) = true := hincl
        exact (jsIncludes_empty_left (jsToLower q)).mp h2
      · exact Or.inr ⟨p, hp, hempty, hincl⟩

/-! ### Claim C8 -/

/-- C8 counterexample: with the store holding one record whose Status is
the empty string and the Status allow-set containing exactly the empty
string, the record satisfies the claim's pass predicate (its value is a
member of the non-empty allow-set and the other three filters pass), yet
the filtered view is empty: the code additionally requires the cell value
to be truthy before testing membership. -/
theorem C8_counterexample :
    applyFilters [[("Status", "")]] [""] [] [] "" = [] ∧
    passesFiltersClaim [""] [] [] "" [("Status", "")] := by
  constructor
  · rfl
  · unfold passesFiltersClaim
    exact ⟨Or.inr (List.mem_singleton.mpr rfl), Or.inl rfl, Or.inl rfl,
      Or.inl rfl⟩

/-- C8 amended: a record is in the filtered view iff it passes all four
filters conjunctively: a Status, Region or Type set filter passes when its
allow-set is empty or the record's value is non-empty and a member of the
allow-set, and the free-text filter passes when the query is empty or some
cell value contains the query case-insensitively. -/
theorem C8_amended_filter_characterization (venues : List Venue)
    (statusFilters regionFilters typeFilters : List String) (query : String) :
    applyFilters venues statusFilters regionFilters typeFilters query =
      venues.filter (fun v =>
        decide (passesFiltersAmended statusFilters regionFilters typeFilters
          query v)) := by
  unfold applyFilters
  by_cases hearly : (statusFilters.isEmpty && regionFilters.isEmpty &&
      typeFilters.isEmpty && (jsToLower query == "")) = true
  · rw [if_pos hearly]
    simp only [Bool.and_eq_true, List.isEmpty_iff, beq_iff_eq] at hearly
    obtain ⟨⟨⟨h1, h2⟩, h3⟩, hq0⟩ := hearly
    have hq : query = "" := (jsToLower_eq_empty_iff query).mp hq0
    symm
    apply List.filter_eq_self.mpr
    intro v _
    rw [decide_eq_true_eq]
    unfold passesFiltersAmended
    exact ⟨Or.inl h1, Or.inl h2, Or.inl h3, Or.inl hq⟩
  · rw [if_neg hearly]
    apply List.filter_congr
    intro v _
    rw [Bool.eq_iff_iff, decide_eq_true_eq]
    unfold passesFiltersAmended
    rw [Bool.and_eq_true, Bool.and_eq_true, Bool.and_eq_true,
      set_filter_conjunct_iff statusFilters (lookupD v "Status"),
      set_filter_conjunct_iff regionFilters (lookupD v "Region"),
      set_filter_conjunct_iff typeFilters (lookupD v "Type"),
      text_filter_conjunct_iff query v]
    exact ⟨fun h => ⟨h.1.1.1, h.1.1.2, h.1.2, h.2⟩,
      fun h => ⟨⟨⟨h.1, h.2.1⟩, h.2.2.1⟩, h.2.2.2⟩⟩

/-! ### Pagination -/

/-- `calculatePagination` from src/script.js: recompute
`totalPages = Math.ceil(filteredCount / pageSize)` (for a positive page
size the Nat expression `(n + p - 1) / p` is that ceiling) and clamp the
current page down to `max 1 totalPages` when it exceeds `totalPages`.
Returns (totalPages, currentPage). -/
def calculatePagination (filteredCount pageSize currentPage : Nat) :
    Nat × Nat :=
  ((filteredCount + pageSize - 1) / pageSize,
   if (filteredCount + pageSize - 1) / pageSize < currentPage then
     max 1 ((filteredCount + pageSize - 1) / pageSize)
   else currentPage)

/-- `goToPage` from src/script.js: adopt the requested page only when it
is between 1 and `totalPages` and differs from the current page; any other
request leaves the current page unchanged. -/
def goToPage (page currentPage totalPages : Nat) : Nat :=
  if 1 ≤ page ∧ page ≤ totalPages ∧ page ≠ currentPage then page
  else currentPage

/-! ### Claim C9 -/

/-- C9: for a positive page size and a current page that is at least 1,
recomputing pagination leaves the current page inside
`[1, max 1 (ceil (count / size))]` with `totalPages` equal to that ceiling,
and an explicit page request (in particular an out-of-range one) silently
keeps the current page inside `[1, max 1 totalPages]` instead of failing. -/
theorem C9_page_in_range :
    (∀ (filteredCount pageSize currentPage : Nat),
      1 ≤ pageSize → 1 ≤ currentPage →
      1 ≤ (calculatePagination filteredCount pageSize currentPage).2 ∧
      (calculatePagination filteredCount pageSize currentPage).2 ≤
        max 1 ((filteredCount + pageSize - 1) / pageSize) ∧
      (calculatePagination filteredCount pageSize currentPage).1 =
        (filteredCount + pageSize - 1) / pageSize) ∧
    (∀ (page currentPage totalPages : Nat),
      1 ≤ currentPage → currentPage ≤ max 1 totalPages →
      1 ≤ goToPage page currentPage totalPages ∧
      goToPage page currentPage totalPages ≤ max 1 totalPages) := by
  constructor
  · intro filteredCount pageSize currentPage hP hcp
    unfold calculatePagination
    by_cases h : (filteredCount + pageSize - 1) / pageSize < currentPage
    · rw [if_pos h]
      refine ⟨?_, ?_, rfl⟩ <;> omega
    · rw [if_neg h]
      refine ⟨hcp, ?_, rfl⟩
      omega
  · intro page currentPage totalPages h1 h2
    unfold goToPage
    by_cases h : 1 ≤ page ∧ page ≤ totalPages ∧ page ≠ currentPage
    · rw [if_pos h]
      omega
    · rw [if_neg h]
      exact ⟨h1, h2⟩

/-- Witness for C9: recomputation with 7 records, page size 5 and a stale
current page 9 clamps to page 2, and an out-of-range request for page 99
keeps page 2 of 5. -/
theorem C9_page_in_range_witness :
    (1 ≤ (calculatePagination 7 5 9).2 ∧
     (calculatePagination 7 5 9).2 ≤ max 1 ((7 + 5 - 1) / 5) ∧
     (calculatePagination 7 5 9).1 = (7 + 5 - 1) / 5) ∧
    (1 ≤ goToPage 99 2 5 ∧ goToPage 99 2 5 ≤ max 1 5) :=
  ⟨C9_page_in_range.1 7 5 9 (by decide) (by decide),
   C9_page_in_range.2 99 2 5 (by decide) (by decide)⟩

/-! ### Location resolution -/

/-- First-occurrence string replacement, as `String.prototype.replace`
with a string pattern: replace the leftmost occurrence of `pat` (if any)
by `repl`. -/
def replaceFirstList (pat repl : List Char) : List Char → List Char
  | [] => if List.isPrefixOf pat [] then repl else []
  | c :: rest =>
    if List.isPrefixOf pat (c :: rest) then repl ++ (c :: rest).drop pat.length
    else c :: replaceFirstList pat repl rest

/-- Model of `String.prototype.replace` with a plain string pattern. -/
def jsReplaceFirst (s pat repl : String) : String :=
  String.mk (replaceFirstList pat.toList repl.toList s.toList)

/-- The state abbreviation table of `expandStateAbbreviations` in
src/script.js, in source order. -/
def stateAbbreviations : List (String × String) :=
  [("AL", "Alabama"), ("AK", "Alaska"), ("AZ", "Arizona"), ("AR", "Arkansas"),
   ("CA", "California"), ("CO", "Colorado"), ("CT", "Connecticut"),
   ("DE", "Delaware"), ("FL", "Florida"), ("GA", "Georgia"), ("HI", "Hawaii"),
   ("ID", "Idaho"), ("IL", "Illinois"), ("IN", "Indiana"), ("IA", "Iowa"),
   ("KS", "Kansas"), ("KY", "Kentucky"), ("LA", "Louisiana"), ("ME", "Maine"),
   ("MD", "Maryland"), ("MA", "Massachusetts"), ("MI", "Michigan"),
   ("MN", "Minnesota"), ("MS", "Mississippi"), ("MO", "Missouri"),
   ("MT", "Montana"), ("NE", "Nebraska"), ("NV", "Nevada"),
   ("NH", "New Hampshire"), ("NJ", "New Jersey"), ("NM", "New Mexico"),
   ("NY", "New York"), ("NC", "North Carolina"), ("ND", "North Dakota"),
   ("OH", "Ohio"), ("OK", "Oklahoma"), ("OR", "Oregon"),
   ("PA", "Pennsylvania"), ("RI", "Rhode Island"), ("SC", "South Carolina"),
   ("SD", "South Dakota"), ("TN", "Tennessee"), ("TX", "Texas"),
   ("UT", "Utah"), ("VT", "Vermont"), ("VA", "Virginia"),
   ("WA", "Washington"), ("WV", "West Virginia"), ("WI", "Wisconsin"),
   ("WY", "Wyoming"), ("DC", "District of Columbia")]

/-- The loop of `expandStateAbbreviations`: the first abbreviation whose
", XX" form occurs in the location is replaced (first occurrence only) by
the full name and the result returned at once; otherwise the location is
returned unchanged. -/
def expandStateLoop : List (String × String) → String → String
  | [], location => location
  | (abbr, full) :: rest, location =>
    if jsIncludes location (", " ++ abbr) then
      jsReplaceFirst location (", " ++ abbr) (", " ++ full)
    else expandStateLoop rest location

/-- `expandStateAbbreviations` from src/script.js. -/
def expandStateAbbreviations (location : String) : String :=
  expandStateLoop stateAbbreviations location

/-- One character of a regular expression pattern against one subject
character: the dot matches everything except a line terminator, every
other character matches itself. -/
def regexCharMatches (p c : Char) : Bool :=
  if p == '.' then
    !(c == '\n' || c == '\r' || c == '\u2028' || c == '\u2029')
  else p == c

/-- Match a pattern against a prefix of the subject, returning the rest of
the subject on success. -/
def matchPat : List Char → List Char → Option (List Char)
  | [], l => some l
  | _ :: _, [] => none
  | p :: ps, c :: cs => if regexCharMatches p c then matchPat ps cs else none

/-- Fuelled global regex replacement: scan left to right, replacing every
non-overlapping match.  The fuel is the subject length; every pattern used
by the code is non-empty, so each step consumes at least one character. -/
def regexReplaceAllAux (fuel : Nat) (pat repl : List Char) (l : List Char) :
    List Char :=
  match fuel, l with
  | 0, l => l
  | _ + 1, [] => []
  | fuel + 1, c :: cs =>
    match matchPat pat (c :: cs) with
    | some rest => repl ++ regexReplaceAllAux fuel pat repl rest
    | none => c :: regexReplaceAllAux fuel pat repl cs

/-- Model of `String.prototype.replace` with `new RegExp(pat, 'g')` for the
literal-plus-dot patterns the code builds (the dot in a pattern such as
"St." is a wildcard in the constructed regular expression). -/
def regexReplaceAll (s pat repl : String) : String :=
  String.mk (regexReplaceAllAux s.toList.length pat.toList repl.toList s.toList)

/-- The city abbreviation table of `expandCityAbbreviations` in
src/script.js, in source order. -/
def cityAbbreviations : List (String × String) :=
  [("St.", "Saint"), ("St ", "Saint "), ("St,", "Saint,"),
   ("St. ", "Saint "), ("St. ,", "Saint, ")]

/-- The loop of `expandCityAbbreviations`: for each pattern in order, if it
occurs literally in the running string, globally replace it as a regular
expression (dot acting as a wildcard). -/
def expandCityLoop : List (String × String) → String → String
  | [], expanded => expanded
  | (abbr, full) :: rest, expanded =>
    expandCityLoop rest
      (if jsIncludes expanded abbr then regexReplaceAll expanded abbr full
       else expanded)

/-- `expandCityAbbreviations` from src/script.js. -/
def expandCityAbbreviations (location : String) : String :=
  expandCityLoop cityAbbreviations location

/-- `geocodeLocation` from src/script.js, over an arbitrary location index
(an association list standing for the `geoData` object, keys unique):
exact lookup of the state-then-city expanded form, then of the
state-expanded form, then of the raw string, then the bare city name (the
trimmed part of the expanded form before the first comma) provided no other
key starts with that name followed by a comma.  An empty location returns
nothing; no fuzzy matching. -/
def geocodeLocation (geoData : List (String × (Int × Int)))
    (location : String) : Option (Int × Int) :=
  if location == "" then none
  else
    match geoData.lookup
        (expandCityAbbreviations (expandStateAbbreviations location)) with
    | some c => some c
    | none =>
      match geoData.lookup (expandStateAbbreviations location) with
      | some c => some c
      | none =>
        match geoData.lookup location with
        | some c => some c
        | none =>
          let cityOnly := jsTrim ((jsSplit
            (expandCityAbbreviations (expandStateAbbreviations location))
            ',').headD "")
          if cityOnly == "" then none
          else
            match geoData.lookup cityOnly with
            | none => none
            | some c =>
              if geoData.any (fun kv =>
                  !(kv.1 == cityOnly) && jsStartsWith kv.1 (cityOnly ++ ","))
              then none
              else some c

/-- A string decomposes as `p ++ st` for some `st` exactly when `p` is a
prefix of it. -/
theorem exists_append_eq_iff (k p : String) :
    (∃ st, k = p ++ st) ↔ List.isPrefixOf p.toList k.toList = true := by
  rw [List.isPrefixOf_iff_prefix]
  constructor
  · rintro ⟨st, rfl⟩
    exact ⟨st.toList, rfl⟩
  · rintro ⟨t, ht⟩
    refine ⟨String.mk t, String.ext ?_⟩
    exact ht.symm

instance (k p : String) : Decidable (∃ st, k = p ++ st) :=
  decidable_of_iff _ (exists_append_eq_iff k p).symm

/-- The location resolver exactly as claim C6 words it: try (a) the exact
match of the state-then-city expanded key, (b) the state-expanded-only key,
(c) the raw original string, and (d) the bare city name alone (the trimmed
part of the expanded form before the first comma, when non-empty), the last
only if no other index key of the form City-comma-space-state exists
besides the bare-city entry itself. -/
def specResolve (geoData : List (String × (Int × Int)))
    (location : String) : Option (Int × Int) :=
  if location == "" then none
  else
    match geoData.lookup
        (expandCityAbbreviations (expandStateAbbreviations location)) with
    | some c => some c
    | none =>
      match geoData.lookup (expandStateAbbreviations location) with
      | some c => some c
      | none =>
        match geoData.lookup location with
        | some c => some c
        | none =>
          let city := jsTrim ((jsSplit
            (expandCityAbbreviations (expandStateAbbreviations location))
            ',').headD "")
          if city == "" then none
          else if ∃ k ∈ geoData.map Prod.fst,
              k ≠ city ∧ ∃ st, k = city ++ ", " ++ st then none
          else geoData.lookup city

/-- Splitting never yields an empty list of pieces. -/
theorem jsSplitList_ne_nil (sep : Char) (l : List Char) :
    jsSplitList sep l ≠ [] := by
  cases l with
  | nil => simp [jsSplitList]
  | cons c rest =>
    unfold jsSplitList
    by_cases hc : (c == sep) = true
    · simp [hc]
    · rcases hr : jsSplitList sep rest with _ | ⟨h, t⟩
      · exact absurd hr (jsSplitList_ne_nil sep rest)
      · simp [hc, hr]

/-- The first piece of a split contains no separator. -/
theorem sep_not_mem_splitHead (sep : Char) (l : List Char) :
    sep ∉ (jsSplitList sep l).headD [] := by
  induction l with
  | nil => simp [jsSplitList]
  | cons c rest ih =>
    unfold jsSplitList
    by_cases hc : (c == sep) = true
    · simp [hc]
    · rcases hr : jsSplitList sep rest with _ | ⟨h, t⟩
      · exact absurd hr (jsSplitList_ne_nil sep rest)
      · rw [hr] at ih
        simp only [hc, Bool.false_eq_true, if_false, List.headD_cons]
        intro hmem
        rcases List.mem_cons.mp hmem with heq | hmem2
        · exact absurd (beq_iff_eq.mpr heq.symm) (by simpa using hc)
        · exact ih (by simpa using hmem2)

/-- Trimming only removes characters. -/
theorem mem_of_mem_jsTrim (s : String) (c : Char)
    (h : c ∈ (jsTrim s).toList) : c ∈ s.toList := by
  have h1 : c ∈ ((s.toList.dropWhile jsIsWs).reverse.dropWhile jsIsWs).reverse := h
  rw [List.mem_reverse] at h1
  have h2 := (List.dropWhile_sublist jsIsWs).mem h1
  rw [List.mem_reverse] at h2
  exact (List.dropWhile_sublist jsIsWs).mem h2

/-- The bare city name extracted by the resolver contains no comma. -/
theorem comma_not_mem_cityOnly (s : String) :
    ',' ∉ (jsTrim ((jsSplit s ',').headD "")).toList := by
  intro h
  have h2 := mem_of_mem_jsTrim _ _ h
  rcases hp : jsSplitList ',' s.toList with _ | ⟨h0, t⟩
  · exact absurd hp (jsSplitList_ne_nil ',' s.toList)
  · have hh : (jsSplit s ',').headD "" = String.mk h0 := by
      rw [jsSplit, hp]
      rfl
    rw [hh] at h2
    have hnm := sep_not_mem_splitHead ',' s.toList
    rw [hp] at hnm
    exact hnm h2

/-- Two comma-free prefixes closed by the same first comma coincide. -/
theorem comma_prefix_eq (c : List Char) :
    ∀ (n rest : List Char), ',' ∉ c → ',' ∉ n →
    (c ++ [','] <+: n ++ ',' :: rest) → c = n := by
  induction c with
  | nil =>
    intro n rest _ hn hp
    cases n with
    | nil => rfl
    | cons b n' =>
      rw [List.nil_append] at hp
      rcases List.cons_prefix_cons.mp hp with ⟨hb, _⟩
      exact absurd (hb ▸ List.mem_cons_self b n') hn
  | cons a c' ih =>
    intro n rest hc hn hp
    cases n with
    | nil =>
      rw [List.nil_append] at hp
      rcases List.cons_prefix_cons.mp hp with ⟨ha, _⟩
      exact absurd (ha ▸ List.mem_cons_self a c') hc
    | cons b n' =>
      rcases List.cons_prefix_cons.mp hp with ⟨hab, hp'⟩
      have heq := ih n' rest (fun hm => hc (List.mem_cons_of_mem a hm))
        (fun hm => hn (List.mem_cons_of_mem b hm)) hp'
      rw [hab, heq]

/-- Under well-formed index keys (every key containing a comma is
name-comma-space-state with a comma-free name), the code's
starts-with-comma ambiguity test coincides with the claim's
City-comma-space-anystate formulation, for a comma-free city name. -/
theorem ambiguity_guard_iff (geoData : List (String × (Int × Int)))
    (city : String) (hc : ',' ∉ city.toList)
    (hkeys : ∀ k ∈ geoData.map Prod.fst, ',' ∈ k.toList →
      ∃ n st, k = n ++ ", " ++ st ∧ ',' ∉ n.toList) :
    (geoData.any (fun kv =>
      !(kv.1 == city) && jsStartsWith kv.1 (city ++ ","))) = true ↔
    (∃ k ∈ geoData.map Prod.fst, k ≠ city ∧ ∃ st, k = city ++ ", " ++ st) := by
  rw [List.any_eq_true]
  constructor
  · rintro ⟨kv, hkv, hb⟩
    rw [Bool.and_eq_true, Bool.not_eq_true', beq_eq_false_iff_ne] at hb
    obtain ⟨hne, hsw⟩ := hb
    have hpre : (city ++ ",").toList <+: kv.1.toList := by
      rw [jsStartsWith, List.isPrefixOf_iff_prefix] at hsw
      exact hsw
    have hcm : ',' ∈ kv.1.toList := by
      apply hpre.sublist.subset
      show ',' ∈ city.toList ++ [',']
      simp
    have hkmem : kv.1 ∈ geoData.map Prod.fst := List.mem_map.mpr ⟨kv, hkv, rfl⟩
    obtain ⟨n, st, hkeq, hn⟩ := hkeys kv.1 hkmem hcm
    have hkl : kv.1.toList = n.toList ++ ',' :: ' ' :: st.toList := by
      rw [hkeq]
      show (n.toList ++ [',', ' ']) ++ st.toList = _
      simp
    have hp2 : city.toList ++ [','] <+: n.toList ++ ',' :: ' ' :: st.toList := by
      rw [← hkl]
      exact hpre
    have hcn : city = n :=
      String.ext (comma_prefix_eq city.toList n.toList (' ' :: st.toList) hc hn hp2)
    exact ⟨kv.1, hkmem, hne, st, by rw [hkeq, ← hcn]⟩
  · rintro ⟨k, hk, hne, st, hkeq⟩
    obtain ⟨kv, hkv, hkv1⟩ := List.mem_map.mp hk
    refine ⟨kv, hkv, ?_⟩
    rw [Bool.and_eq_true, Bool.not_eq_true', beq_eq_false_iff_ne]
    refine ⟨by rw [hkv1]; exact hne, ?_⟩
    rw [jsStartsWith, List.isPrefixOf_iff_prefix, hkv1, hkeq]
    refine ⟨' ' :: st.toList, ?_⟩
    show (city.toList ++ [',']) ++ (' ' :: st.toList) =
      (city.toList ++ [',', ' ']) ++ st.toList
    simp

/-- The state expansion of the concrete scenario input. -/
theorem expand_state_stl :
    expandStateAbbreviations "St. Louis, MO" = "St. Louis, Missouri" := by
  decide

/-- The city expansion of the concrete scenario input. -/
theorem expand_city_stl :
    expandCityAbbreviations "St. Louis, Missouri" = "Saint Louis, Missouri" := by
  decide

/-- The bare city name of the concrete scenario input. -/
theorem cityOnly_stl :
    jsTrim ((jsSplit "Saint Louis, Missouri" ',').headD "") = "Saint Louis" := by
  decide

/-! ### Claim C6 -/

/-- C6: location resolution tries, in order, the state-then-city expanded
key, the state-expanded-only key, the raw string, and the unambiguous bare
city name, returning the first hit and nothing else (no fuzzy matching);
the refinement to the claim's resolver holds for every index whose
comma-carrying keys are name-comma-space-state shaped.  In particular
"St. Louis, MO" expands to exactly "Saint Louis, Missouri"; resolution
succeeds with the coordinate stored under that exact key whenever the index
contains it, and fails when neither it nor any of the fallback keys
(state-expanded, raw, bare city) is present. -/
theorem C6_location_resolution :
    (∀ (geoData : List (String × (Int × Int))) (location : String),
      (∀ k ∈ geoData.map Prod.fst, ',' ∈ k.toList →
        ∃ n st, k = n ++ ", " ++ st ∧ ',' ∉ n.toList) →
      geocodeLocation geoData location = specResolve geoData location) ∧
    expandCityAbbreviations (expandStateAbbreviations "St. Louis, MO") =
      "Saint Louis, Missouri" ∧
    (∀ (geoData : List (String × (Int × Int))) (c : Int × Int),
      geoData.lookup "Saint Louis, Missouri" = some c →
      geocodeLocation geoData "St. Louis, MO" = some c) ∧
    (∀ geoData : List (String × (Int × Int)),
      geoData.lookup "Saint Louis, Missouri" = none →
      geoData.lookup "St. Louis, Missouri" = none →
      geoData.lookup "St. Louis, MO" = none →
      geoData.lookup "Saint Louis" = none →
      geocodeLocation geoData "St. Louis, MO" = none) := by
  refine ⟨?_, by decide, ?_, ?_⟩
  · intro geoData location hkeys
    unfold geocodeLocation specResolve
    by_cases hloc : (location == "") = true
    · rw [if_pos hloc, if_pos hloc]
    · rw [if_neg hloc, if_neg hloc]
      rcases h1 : geoData.lookup
          (expandCityAbbreviations (expandStateAbbreviations location)) with _ | c1
      swap
      · rfl
      rcases h2 : geoData.lookup (expandStateAbbreviations location) with _ | c2
      swap
      · rfl
      rcases h3 : geoData.lookup location with _ | c3
      swap
      · rfl
      have hc := comma_not_mem_cityOnly
        (expandCityAbbreviations (expandStateAbbreviations location))
      set city := jsTrim ((jsSplit
        (expandCityAbbreviations (expandStateAbbreviations location))
        ',').headD "") with hcity_def
      by_cases hcity : (city == "") = true
      · rw [if_pos hcity, if_pos hcity]
      · rw [if_neg hcity, if_neg hcity]
        have hiff := ambiguity_guard_iff geoData city hc hkeys
        by_cases hp : ∃ k ∈ geoData.map Prod.fst,
            k ≠ city ∧ ∃ st, k = city ++ ", " ++ st
        · have hb := hiff.mpr hp
          rw [if_pos hp]
          rcases h4 : geoData.lookup city with _ | c4
          · rfl
          · simp only [hb, if_true]
        · have hb : (geoData.any (fun kv =>
              !(kv.1 == city) && jsStartsWith kv.1 (city ++ ","))) = false := by
            cases hq : (geoData.any (fun kv =>
                !(kv.1 == city) && jsStartsWith kv.1 (city ++ ","))) with
            | false => rfl
            | true => exact absurd (hiff.mp hq) hp
          rw [if_neg hp]
          rcases h4 : geoData.lookup city with _ | c4
          · rfl
          · simp only [hb, Bool.false_eq_true, if_false]
  · intro geoData c hl
    unfold geocodeLocation
    have e1 : (("St. Louis, MO" : String) == "") = false := by decide
    simp only [e1, Bool.false_eq_true, if_false, expand_state_stl,
      expand_city_stl, hl]
  · intro geoData h1 h2 h3 h4
    unfold geocodeLocation
    have e1 : (("St. Louis, MO" : String) == "") = false := by decide
    have e2 : (("Saint Louis" : String) == "") = false := by decide
    simp only [e1, Bool.false_eq_true, if_false, expand_state_stl,
      expand_city_stl, h1, h2, h3, cityOnly_stl, e2, h4]

/-- Witness for C6 at concrete indexes: the refinement at a one-entry
index, a successful resolution of "St. Louis, MO", and a failing one. -/
theorem C6_location_resolution_witness :
    geocodeLocation [("Springfield, Illinois", ((39 : Int), (-89 : Int)))]
        "Springfield, IL" =
      specResolve [("Springfield, Illinois", ((39 : Int), (-89 : Int)))]
        "Springfield, IL" ∧
    geocodeLocation [("Saint Louis, Missouri", ((38 : Int), (-90 : Int)))]
        "St. Louis, MO" = some ((38 : Int), (-90 : Int)) ∧
    geocodeLocation [("Paris, Texas", ((33 : Int), (-95 : Int)))]
        "St. Louis, MO" = none := by
  refine ⟨?_, ?_, ?_⟩
  · apply C6_location_resolution.1
    intro k hk hcm
    have hk2 : k = "Springfield, Illinois" := by
      simpa using hk
    subst hk2
    exact ⟨"Springfield", "Illinois", rfl, by decide⟩
  · exact C6_location_resolution.2.2.1 _ _ (by decide)
  · exact C6_location_resolution.2.2.2 _ (by decide) (by decide) (by decide)
      (by decide)

/-! ### JavaScript numbers, as the sort comparator sees them -/

/-- The value of `parseFloat(v) || 0`: a finite rational, kept as an
unnormalized fraction with a positive denominator, or an infinity (NaN is
already collapsed to 0 by the `|| 0`).  Decimal strings are modelled
exactly. -/
inductive JsNum where
  | ninf
  | fin (num : ℤ) (den : ℕ+)
  | pinf
deriving DecidableEq

/-- The `<` comparison on such numbers, by cross multiplication for the
finite fractions. -/
def jsNumLt : JsNum → JsNum → Bool
  | .ninf, .ninf => false
  | .ninf, _ => true
  | _, .ninf => false
  | .fin n1 d1, .fin n2 d2 => decide (n1 * ((d2 : ℕ) : ℤ) < n2 * ((d1 : ℕ) : ℤ))
  | .fin _ _, .pinf => true
  | .pinf, _ => false

/-- Numeric value of a digit list. -/
def digitsVal (l : List Char) : Nat :=
  l.foldl (fun a c => a * 10 + (c.toNat - '0'.toNat)) 0

/-- Is the character a hexadecimal digit. -/
def isHexDigitChar (c : Char) : Bool :=
  c.isDigit || ('a' ≤ c && c ≤ 'f') || ('A' ≤ c && c ≤ 'F')

/-- Accept an exponent part filling the whole remaining input, or an empty
remainder. -/
def acceptExpTail (l : List Char) : Bool :=
  match l with
  | [] => true
  | c :: rest =>
    (c == 'e' || c == 'E') &&
    (let rest2 := match rest with
      | s :: r => if s == '+' || s == '-' then r else s :: r
      | [] => []
     !rest2.isEmpty && rest2.all Char.isDigit)

/-- Accept a decimal literal (after an optional sign) filling the whole
input: digits, or digits dot digits, or dot digits, with an optional
exponent. -/
def acceptDecimalBody (l : List Char) : Bool :=
  let d1 := l.takeWhile Char.isDigit
  let r1 := l.dropWhile Char.isDigit
  if d1.isEmpty then
    match r1 with
    | '.' :: r2 =>
      !(r2.takeWhile Char.isDigit).isEmpty &&
        acceptExpTail (r2.dropWhile Char.isDigit)
    | _ => false
  else
    match r1 with
    | '.' :: r2 => acceptExpTail (r2.dropWhile Char.isDigit)
    | _ => acceptExpTail r1

/-- Accept an unsigned non-decimal integer literal (hex, octal, binary). -/
def acceptNonDecimal (l : List Char) : Bool :=
  match l with
  | '0' :: x :: rest =>
    ((x == 'x' || x == 'X') && !rest.isEmpty && rest.all isHexDigitChar) ||
    ((x == 'o' || x == 'O') && !rest.isEmpty &&
      rest.all (fun c => '0' ≤ c && c ≤ '7')) ||
    ((x == 'b' || x == 'B') && !rest.isEmpty &&
      rest.all (fun c => c == '0' || c == '1'))
  | _ => false

/-- Model of the comparator branch test `!isNaN(v)` for a string value:
whether the ToNumber coercion of the string is not NaN, following the
StringNumericLiteral grammar (whitespace-only is 0, optional sign with a
decimal literal or Infinity, unsigned hex/octal/binary). -/
def jsIsNumericString (s : String) : Bool :=
  match (jsTrim s).toList with
  | [] => true
  | '+' :: rest => rest == "Infinity".toList || acceptDecimalBody rest
  | '-' :: rest => rest == "Infinity".toList || acceptDecimalBody rest
  | l => l == "Infinity".toList || acceptDecimalBody l || acceptNonDecimal l

/-- Model of `parseFloat(v) || 0`: skip leading whitespace, parse the
longest prefix that is a signed decimal literal or Infinity; no valid
prefix (NaN) and negative zero both give 0. -/
def parseFloatOrZero (s : String) : JsNum :=
  let l := s.toList.dropWhile jsIsWs
  let neg := match l with
    | '-' :: _ => true
    | _ => false
  let l2 := match l with
    | '+' :: r => r
    | '-' :: r => r
    | _ => l
  if List.isPrefixOf "Infinity".toList l2 then
    if neg then .ninf else .pinf
  else
    let int := l2.takeWhile Char.isDigit
    let r1 := l2.dropWhile Char.isDigit
    let frac := match r1 with
      | '.' :: rr => rr.takeWhile Char.isDigit
      | _ => []
    let r2 := match r1 with
      | '.' :: rr => rr.dropWhile Char.isDigit
      | _ => r1
    if int.isEmpty && frac.isEmpty then .fin 0 1
    else
      let exp : Int := match r2 with
        | e :: rr =>
          if e == 'e' || e == 'E' then
            let esign : Int := match rr with
              | '-' :: _ => -1
              | _ => 1
            let rr2 := match rr with
              | '+' :: r3 => r3
              | '-' :: r3 => r3
              | _ => rr
            let ed := rr2.takeWhile Char.isDigit
            if ed.isEmpty then 0 else esign * (digitsVal ed : Int)
          else 0
        | [] => 0
      let mantNum : ℤ :=
        (if neg then (-1 : ℤ) else 1) *
          ((digitsVal int * 10 ^ frac.length + digitsVal frac : ℕ) : ℤ)
      let mantDen : ℕ+ := ⟨10 ^ frac.length, Nat.pos_pow_of_pos _ (by decide)⟩
      if 0 ≤ exp then
        .fin (mantNum * ((10 ^ exp.toNat : ℕ) : ℤ)) mantDen
      else
        .fin mantNum
          (mantDen * ⟨10 ^ (-exp).toNat, Nat.pos_pow_of_pos _ (by decide)⟩)

/-! ### The sort comparator and the sort -/

/-- The shared tail of the comparator in `sortByColumn` and
`applyCurrentSort`: `-1`, `1` or `0` by `<`/`>` on the two numbers, with
the sign flipped for a descending sort. -/
def numCmpInt (asc : Bool) (x y : JsNum) : Int :=
  if jsNumLt x y then (if asc then -1 else 1)
  else if jsNumLt y x then (if asc then 1 else -1)
  else 0

/-- Lexicographic code-unit comparison of character lists, as the
JavaScript `<` on strings. -/
def listLtChar : List Char → List Char → Bool
  | [], [] => false
  | [], _ :: _ => true
  | _ :: _, [] => false
  | a :: as, b :: bs =>
    if a < b then true else if b < a then false else listLtChar as bs

/-- The JavaScript `<` on strings. -/
def jsStrLt (x y : String) : Bool :=
  listLtChar x.toList y.toList

/-- The same comparator tail on the lowercased strings. -/
def strCmpInt (asc : Bool) (x y : String) : Int :=
  if jsStrLt x y then (if asc then -1 else 1)
  else if jsStrLt y x then (if asc then 1 else -1)
  else 0

/-- The comparator of `sortByColumn` and `applyCurrentSort` in
src/script.js: read both cells (missing or falsy as the empty string); if
both pass the `isNaN` numeric test compare `parseFloat(value) || 0`
numerically, otherwise compare the lowercased strings; the sort direction
flips the sign. -/
def sortCompare (column : String) (asc : Bool) (a b : Venue) : Int :=
  if jsIsNumericString (lookupD a column) &&
      jsIsNumericString (lookupD b column) then
    numCmpInt asc (parseFloatOrZero (lookupD a column))
      (parseFloatOrZero (lookupD b column))
  else
    strCmpInt asc (jsToLower (lookupD a column))
      (jsToLower (lookupD b column))

/-- `Array.prototype.sort` places `x` after `y` exactly when the comparator
returns a positive number on (x, y). -/
def jsAfter (cmp : α → α → Int) (a b : α) : Bool :=
  decide (0 < cmp a b)

/-- Insert an element into a sorted list, placing it after every element
the comparator orders it after: the stable insertion step. -/
def insertJs (after : α → α → Bool) (x : α) : List α → List α
  | [] => [x]
  | y :: l => if after x y then y :: insertJs after x l else x :: y :: l

/-- Model of `Array.prototype.sort` with a comparator: a stable sort (the
ECMAScript specification requires stability; for an inconsistent comparator
the resulting order is implementation-defined, and this model fixes stable
insertion sort). -/
def sortJs (after : α → α → Bool) : List α → List α
  | [] => []
  | x :: l => insertJs after x (sortJs after l)

/-- The sort-related state of `SimpleCRM`: the active sort column (null
before any sort), the direction (true for 'asc', false for 'desc') and the
`filteredVenues` array the sort mutates. -/
structure SortState where
  sortColumn : Option String
  ascending : Bool
  filteredVenues : List Venue
deriving Repr, DecidableEq

/-- `sortByColumn` from src/script.js: toggle the direction when the same
column is selected again, else select the column ascending; then sort
`filteredVenues` in place with the comparator. -/
def sortByColumn (column : String) (st : SortState) : SortState :=
  let asc := if st.sortColumn = some column then !st.ascending else true
  { sortColumn := some column
    ascending := asc
    filteredVenues :=
      sortJs (jsAfter (sortCompare column asc)) st.filteredVenues }

/-- `applyCurrentSort` from src/script.js: re-sort with the current column
and direction, a no-op without an active sort column. -/
def applyCurrentSort (st : SortState) : SortState :=
  match st.sortColumn with
  | none => st
  | some column =>
    { st with filteredVenues :=
        sortJs (jsAfter (sortCompare column st.ascending)) st.filteredVenues }

/-! ### Generic facts about the stable sort -/

/-- Inserting permutes. -/
theorem insertJs_perm (after : α → α → Bool) (x : α) (l : List α) :
    (insertJs after x l).Perm (x :: l) := by
  induction l with
  | nil => exact List.Perm.refl _
  | cons y l ih =>
    unfold insertJs
    by_cases h : after x y = true
    · simp only [h, if_true]
      exact (ih.cons y).trans (List.Perm.swap x y l)
    · have h2 : after x y = false := by
        cases hq : after x y with
        | false => rfl
        | true => exact absurd hq h
      simp only [h2, Bool.false_eq_true, if_false]
      exact List.Perm.refl _

/-- Sorting permutes. -/
theorem sortJs_perm (after : α → α → Bool) (l : List α) :
    (sortJs after l).Perm l := by
  induction l with
  | nil => exact List.Perm.refl _
  | cons x l ih =>
    exact (insertJs_perm after x (sortJs after l)).trans (ih.cons x)

/-- Inserting an element that is never placed after another element
satisfying `p` keeps the `p`-filtered list, with the new element in front
when it satisfies `p` itself: the stability of one insertion step. -/
theorem filter_insertJs (after : α → α → Bool) (p : α → Bool) (x : α)
    (l : List α)
    (hx : ∀ b ∈ l, p x = true → p b = true → after x b = false) :
    (insertJs after x l).filter p =
      if p x then x :: l.filter p else l.filter p := by
  induction l with
  | nil =>
    by_cases hp : p x = true <;> simp [insertJs, hp]
  | cons y l ih =>
    have hx' : ∀ b ∈ l, p x = true → p b = true → after x b = false :=
      fun b hb => hx b (List.mem_cons_of_mem y hb)
    unfold insertJs
    by_cases h : after x y = true
    · simp only [h, if_true]
      by_cases hpx : p x = true
      · have hpy : p y = false := by
          cases hpy : p y with
          | false => rfl
          | true =>
            exact absurd (hx y (List.mem_cons_self y l) hpx hpy)
              (by simp [h])
        simp [List.filter_cons, hpy, hpx, ih hx']
      · have hpx' : p x = false := by
          cases hq : p x with
          | false => rfl
          | true => exact absurd hq hpx
        rw [List.filter_cons, ih hx', if_neg hpx, if_neg hpx,
          List.filter_cons]
    · have h' : after x y = false := by
        cases hq : after x y with
        | false => rfl
        | true => exact absurd hq h
      simp only [h', Bool.false_eq_true, if_false]
      by_cases hpx : p x = true
      · rw [List.filter_cons_of_pos hpx, if_pos hpx]
      · have hpx' : p x = false := by
          cases hq : p x with
          | false => rfl
          | true => exact absurd hq hpx
        rw [List.filter_cons_of_neg (by simp [hpx']), if_neg hpx]

/-- Stability of the sort: elements satisfying `p`, pairwise never placed
after one another by the comparator, keep their relative order. -/
theorem sortJs_filter (after : α → α → Bool) (p : α → Bool) (l : List α)
    (hcond : ∀ a ∈ l, ∀ b ∈ l, p a = true → p b = true → after a b = false) :
    (sortJs after l).filter p = l.filter p := by
  induction l with
  | nil => rfl
  | cons x l ih =>
    have hmem : ∀ b ∈ sortJs after l, b ∈ l :=
      fun b hb => (sortJs_perm after l).mem_iff.mp hb
    have hx : ∀ b ∈ sortJs after l, p x = true → p b = true →
        after x b = false :=
      fun b hb => hcond x (List.mem_cons_self x l) b
        (List.mem_cons_of_mem x (hmem b hb))
    have ih' := ih (fun a ha b hb => hcond a (List.mem_cons_of_mem x ha) b
      (List.mem_cons_of_mem x hb))
    show (insertJs after x (sortJs after l)).filter p = _
    rw [filter_insertJs after p x (sortJs after l) hx, ih']
    by_cases hpx : p x = true
    · rw [if_pos hpx, List.filter_cons_of_pos hpx]
    · have hpx' : p x = false := by
        cases hq : p x with
        | false => rfl
        | true => exact absurd hq hpx
      rw [if_neg hpx, List.filter_cons_of_neg (by simp [hpx'])]

/-- Inserting into a list sorted for the comparator keeps it sorted,
provided the comparator is asymmetric and transitive on the elements
involved. -/
theorem pairwise_insertJs (after : α → α → Bool) (x : α) (l : List α)
    (hpw : List.Pairwise (fun a b => after a b = false) l)
    (hax : ∀ y ∈ l, after x y = true → after y x = false)
    (htr : ∀ y ∈ l, ∀ z ∈ l, after x y = false → after y z = false →
      after x z = false) :
    List.Pairwise (fun a b => after a b = false) (insertJs after x l) := by
  induction l with
  | nil => simp [insertJs]
  | cons y l ih =>
    rcases List.pairwise_cons.mp hpw with ⟨hy, hpl⟩
    unfold insertJs
    by_cases h : after x y = true
    · simp only [h, if_true]
      refine List.pairwise_cons.mpr ⟨?_, ?_⟩
      · intro z hz
        rcases List.mem_cons.mp ((insertJs_perm after x l).mem_iff.mp hz)
          with hz' | hz'
        · rw [hz']
          exact hax y (List.mem_cons_self y l) h
        · exact hy z hz'
      · exact ih hpl (fun z hz => hax z (List.mem_cons_of_mem y hz))
          (fun z hz w hw => htr z (List.mem_cons_of_mem y hz) w
            (List.mem_cons_of_mem y hw))
    · have h' : after x y = false := by
        cases hq : after x y with
        | false => rfl
        | true => exact absurd hq h
      simp only [h', Bool.false_eq_true, if_false]
      refine List.pairwise_cons.mpr ⟨?_, hpw⟩
      intro z hz
      rcases List.mem_cons.mp hz with hz' | hz'
      · rw [hz']
        exact h'
      · exact htr y (List.mem_cons_self y l) z (List.mem_cons_of_mem y hz')
          h' (hy z hz')

/-- The sort output is sorted for the comparator, provided the comparator
is asymmetric and transitive on the list elements. -/
theorem sortJs_pairwise (after : α → α → Bool) (l : List α)
    (hasym : ∀ a ∈ l, ∀ b ∈ l, after a b = true → after b a = false)
    (htr : ∀ a ∈ l, ∀ b ∈ l, ∀ c ∈ l, after a b = false →
      after b c = false → after a c = false) :
    List.Pairwise (fun a b => after a b = false) (sortJs after l) := by
  induction l with
  | nil => simp [sortJs]
  | cons x l ih =>
    have hmem : ∀ b ∈ sortJs after l, b ∈ l :=
      fun b hb => (sortJs_perm after l).mem_iff.mp hb
    show List.Pairwise _ (insertJs after x (sortJs after l))
    refine pairwise_insertJs after x (sortJs after l) ?_ ?_ ?_
    · exact ih (fun a ha b hb => hasym a (List.mem_cons_of_mem x ha) b
        (List.mem_cons_of_mem x hb))
        (fun a ha b hb c hc => htr a (List.mem_cons_of_mem x ha) b
          (List.mem_cons_of_mem x hb) c (List.mem_cons_of_mem x hc))
    · exact fun y hy => hasym x (List.mem_cons_self x l) y
        (List.mem_cons_of_mem x (hmem y hy))
    · exact fun y hy z hz => htr x (List.mem_cons_self x l) y
        (List.mem_cons_of_mem x (hmem y hy)) z
        (List.mem_cons_of_mem x (hmem z hz))

/-! ### Order facts about the comparator -/

/-- The numeric `<` is asymmetric. -/
theorem jsNumLt_asymm (x y : JsNum) :
    jsNumLt x y = true → jsNumLt y x = false := by
  cases x <;> cases y <;> simp [jsNumLt]
  exact fun h => le_of_lt h

/-- Failures of the numeric `<` chain. -/
theorem jsNumLt_negtrans (x y z : JsNum) :
    jsNumLt x y = false → jsNumLt y z = false → jsNumLt x z = false := by
  cases x <;> cases y <;> cases z <;> simp [jsNumLt]
  case fin.fin.fin n1 d1 n2 d2 n3 d3 =>
    intro h1 h2
    have hd1 : (0:ℤ) < ((d1 : ℕ) : ℤ) := by exact_mod_cast d1.pos
    have hd2 : (0:ℤ) < ((d2 : ℕ) : ℤ) := by exact_mod_cast d2.pos
    have hd3 : (0:ℤ) < ((d3 : ℕ) : ℤ) := by exact_mod_cast d3.pos
    nlinarith [mul_le_mul_of_nonneg_right h1 hd3.le,
      mul_le_mul_of_nonneg_right h2 hd1.le, hd2]

/-- When the ascending numeric comparator is not positive. -/
theorem numCmpInt_notpos_true (x y : JsNum) :
    ¬ 0 < numCmpInt true x y ↔ jsNumLt y x = false := by
  unfold numCmpInt
  by_cases h1 : jsNumLt x y = true
  · simp [h1, jsNumLt_asymm x y h1]
  · have h1' : jsNumLt x y = false := by
      cases hq : jsNumLt x y with
      | false => rfl
      | true => exact absurd hq h1
    by_cases h2 : jsNumLt y x = true
    · simp [h1', h2]
    · have h2' : jsNumLt y x = false := by
        cases hq : jsNumLt y x with
        | false => rfl
        | true => exact absurd hq h2
      simp [h1', h2']

/-- When the descending numeric comparator is not positive. -/
theorem numCmpInt_notpos_false (x y : JsNum) :
    ¬ 0 < numCmpInt false x y ↔ jsNumLt x y = false := by
  unfold numCmpInt
  by_cases h1 : jsNumLt x y = true
  · simp [h1]
  · have h1' : jsNumLt x y = false := by
      cases hq : jsNumLt x y with
      | false => rfl
      | true => exact absurd hq h1
    by_cases h2 : jsNumLt y x = true
    · simp [h1', h2]
    · have h2' : jsNumLt y x = false := by
        cases hq : jsNumLt y x with
        | false => rfl
        | true => exact absurd hq h2
      simp [h1', h2']

/-- The numeric comparator ties exactly when neither side is smaller. -/
theorem numCmpInt_eq_zero_iff (asc : Bool) (x y : JsNum) :
    numCmpInt asc x y = 0 ↔ (jsNumLt x y = false ∧ jsNumLt y x = false) := by
  unfold numCmpInt
  by_cases h1 : jsNumLt x y = true
  · cases asc <;> simp [h1]
  · have h1' : jsNumLt x y = false := by
      cases hq : jsNumLt x y with
      | false => rfl
      | true => exact absurd hq h1
    by_cases h2 : jsNumLt y x = true
    · cases asc <;> simp [h1', h2]
    · have h2' : jsNumLt y x = false := by
        cases hq : jsNumLt y x with
        | false => rfl
        | true => exact absurd hq h2
      simp [h1', h2']

/-- The string `<` is asymmetric. -/
theorem listLtChar_asymm (x y : List Char) :
    listLtChar x y = true → listLtChar y x = false := by
  induction x generalizing y with
  | nil =>
    cases y <;> simp [listLtChar]
  | cons a as ih =>
    cases y with
    | nil => simp [listLtChar]
    | cons b bs =>
      unfold listLtChar
      by_cases hab : a < b
      · simp [hab, lt_asymm hab]
      · by_cases hba : b < a
        · simp [hab, hba]
        · simp [hab, hba]
          exact ih bs

/-- Failures of the string `<` chain. -/
theorem listLtChar_negtrans (x : List Char) :
    ∀ (y z : List Char), listLtChar x y = false → listLtChar y z = false →
      listLtChar x z = false := by
  induction x with
  | nil =>
    intro y z h1 h2
    cases y with
    | nil => exact h2
    | cons b bs => simp [listLtChar] at h1
  | cons a as ih =>
    intro y z h1 h2
    cases y with
    | nil =>
      cases z with
      | nil => rfl
      | cons c cs => simp [listLtChar] at h2
    | cons b bs =>
      cases z with
      | nil => rfl
      | cons c cs =>
        unfold listLtChar at h1 h2 ⊢
        by_cases hab : a < b
        · simp [hab] at h1
        · by_cases hbc : b < c
          · simp [hab, hbc] at h1 h2 ⊢
          · by_cases hba : b < a
            · have hca : c < a := lt_of_le_of_lt (le_of_not_lt hbc) hba
              simp [not_lt_of_gt hca, hca]
            · -- a = b
              have heq : a = b := le_antisymm (le_of_not_lt hba) (le_of_not_lt hab)
              subst heq
              by_cases hca : c < a
              · simp [not_lt_of_gt hca, hca]
              · by_cases hac : a < c
                · simp [hac] at h2
                · simp [hab, hba] at h1
                  simp [hac, hca] at h2 ⊢
                  exact ih bs cs h1 h2

/-- The string `<` on strings is asymmetric. -/
theorem jsStrLt_asymm (x y : String) :
    jsStrLt x y = true → jsStrLt y x = false :=
  listLtChar_asymm x.toList y.toList

/-- Failures of the string `<` chain, on strings. -/
theorem jsStrLt_negtrans (x y z : String) :
    jsStrLt x y = false → jsStrLt y z = false → jsStrLt x z = false :=
  listLtChar_negtrans x.toList y.toList z.toList

/-- When the ascending string comparator is not positive. -/
theorem strCmpInt_notpos_true (x y : String) :
    ¬ 0 < strCmpInt true x y ↔ jsStrLt y x = false := by
  unfold strCmpInt
  by_cases h1 : jsStrLt x y = true
  · simp [h1, jsStrLt_asymm x y h1]
  · have h1' : jsStrLt x y = false := by
      cases hq : jsStrLt x y with
      | false => rfl
      | true => exact absurd hq h1
    by_cases h2 : jsStrLt y x = true
    · simp [h1', h2]
    · have h2' : jsStrLt y x = false := by
        cases hq : jsStrLt y x with
        | false => rfl
        | true => exact absurd hq h2
      simp [h1', h2']

/-- When the descending string comparator is not positive. -/
theorem strCmpInt_notpos_false (x y : String) :
    ¬ 0 < strCmpInt false x y ↔ jsStrLt x y = false := by
  unfold strCmpInt
  by_cases h1 : jsStrLt x y = true
  · simp [h1]
  · have h1' : jsStrLt x y = false := by
      cases hq : jsStrLt x y with
      | false => rfl
      | true => exact absurd hq h1
    by_cases h2 : jsStrLt y x = true
    · simp [h1', h2]
    · have h2' : jsStrLt y x = false := by
        cases hq : jsStrLt y x with
        | false => rfl
        | true => exact absurd hq h2
      simp [h1', h2']

/-- The string comparator ties exactly when neither side is smaller. -/
theorem strCmpInt_eq_zero_iff (asc : Bool) (x y : String) :
    strCmpInt asc x y = 0 ↔ (jsStrLt x y = false ∧ jsStrLt y x = false) := by
  unfold strCmpInt
  by_cases h1 : jsStrLt x y = true
  · cases asc <;> simp [h1]
  · have h1' : jsStrLt x y = false := by
      cases hq : jsStrLt x y with
      | false => rfl
      | true => exact absurd hq h1
    by_cases h2 : jsStrLt y x = true
    · cases asc <;> simp [h1', h2]
    · have h2' : jsStrLt y x = false := by
        cases hq : jsStrLt y x with
        | false => rfl
        | true => exact absurd hq h2
      simp [h1', h2']

/-- The comparator in the numeric case. -/
theorem sortCompare_num (column : String) (asc : Bool) (a b : Venue)
    (ha : jsIsNumericString (lookupD a column) = true)
    (hb : jsIsNumericString (lookupD b column) = true) :
    sortCompare column asc a b =
      numCmpInt asc (parseFloatOrZero (lookupD a column))
        (parseFloatOrZero (lookupD b column)) := by
  unfold sortCompare
  rw [ha, hb]
  rfl

/-- The comparator in the string case. -/
theorem sortCompare_str (column : String) (asc : Bool) (a b : Venue)
    (ha : jsIsNumericString (lookupD a column) = false) :
    sortCompare column asc a b =
      strCmpInt asc (jsToLower (lookupD a column))
        (jsToLower (lookupD b column)) := by
  unfold sortCompare
  rw [ha]
  rfl

/-! ### Comparator properties over a uniformly typed column -/

/-- The amending hypothesis of claim C7: every cell of the sort column
among the listed venues passes the numeric test, or none does.  With mixed
values the comparator (numeric for numeric pairs, string otherwise) is not
transitive and the JavaScript sort order is implementation-defined. -/
def columnUniform (column : String) (l : List Venue) : Prop :=
  (∀ v ∈ l, jsIsNumericString (lookupD v column) = true) ∨
  (∀ v ∈ l, jsIsNumericString (lookupD v column) = false)

instance (column : String) (l : List Venue) :
    Decidable (columnUniform column l) := by
  unfold columnUniform
  infer_instance

/-- Asymmetry of after-placement for a uniformly typed pair. -/
theorem after_asym_pair (column : String) (asc : Bool) (a b : Venue)
    (hU : (jsIsNumericString (lookupD a column) = true ∧
            jsIsNumericString (lookupD b column) = true) ∨
          (jsIsNumericString (lookupD a column) = false ∧
            jsIsNumericString (lookupD b column) = false)) :
    jsAfter (sortCompare column asc) a b = true →
    jsAfter (sortCompare column asc) b a = false := by
  intro h
  rw [jsAfter, decide_eq_true_eq] at h
  rw [jsAfter, decide_eq_false_iff_not]
  rcases hU with ⟨ha, hb⟩ | ⟨ha, hb⟩
  · rw [sortCompare_num column asc a b ha hb] at h
    rw [sortCompare_num column asc b a hb ha]
    cases asc
    · have hlt : jsNumLt (parseFloatOrZero (lookupD a column))
          (parseFloatOrZero (lookupD b column)) = true := by
        cases hq : jsNumLt (parseFloatOrZero (lookupD a column))
            (parseFloatOrZero (lookupD b column)) with
        | true => rfl
        | false => exact absurd h ((numCmpInt_notpos_false _ _).mpr hq)
      rw [numCmpInt_notpos_false]
      exact jsNumLt_asymm _ _ hlt
    · have hlt : jsNumLt (parseFloatOrZero (lookupD b column))
          (parseFloatOrZero (lookupD a column)) = true := by
        cases hq : jsNumLt (parseFloatOrZero (lookupD b column))
            (parseFloatOrZero (lookupD a column)) with
        | true => rfl
        | false => exact absurd h ((numCmpInt_notpos_true _ _).mpr hq)
      rw [numCmpInt_notpos_true]
      exact jsNumLt_asymm _ _ hlt
  · rw [sortCompare_str column asc a b ha] at h
    rw [sortCompare_str column asc b a hb]
    cases asc
    · have hlt : jsStrLt (jsToLower (lookupD a column))
          (jsToLower (lookupD b column)) = true := by
        cases hq : jsStrLt (jsToLower (lookupD a column))
            (jsToLower (lookupD b column)) with
        | true => rfl
        | false => exact absurd h ((strCmpInt_notpos_false _ _).mpr hq)
      rw [strCmpInt_notpos_false]
      exact jsStrLt_asymm _ _ hlt
    · have hlt : jsStrLt (jsToLower (lookupD b column))
          (jsToLower (lookupD a column)) = true := by
        cases hq : jsStrLt (jsToLower (lookupD b column))
            (jsToLower (lookupD a column)) with
        | true => rfl
        | false => exact absurd h ((strCmpInt_notpos_true _ _).mpr hq)
      rw [strCmpInt_notpos_true]
      exact jsStrLt_asymm _ _ hlt

/-- Non-placement after is transitive for a uniformly typed triple. -/
theorem after_negtrans_triple (column : String) (asc : Bool) (a b c : Venue)
    (hU : (jsIsNumericString (lookupD a column) = true ∧
            jsIsNumericString (lookupD b column) = true ∧
            jsIsNumericString (lookupD c column) = true) ∨
          (jsIsNumericString (lookupD a column) = false ∧
            jsIsNumericString (lookupD b column) = false ∧
            jsIsNumericString (lookupD c column) = false)) :
    jsAfter (sortCompare column asc) a b = false →
    jsAfter (sortCompare column asc) b c = false →
    jsAfter (sortCompare column asc) a c = false := by
  intro h1 h2
  rw [jsAfter, decide_eq_false_iff_not] at h1 h2
  rw [jsAfter, decide_eq_false_iff_not]
  rcases hU with ⟨ha, hb, hc⟩ | ⟨ha, hb, hc⟩
  · rw [sortCompare_num column asc a b ha hb] at h1
    rw [sortCompare_num column asc b c hb hc] at h2
    rw [sortCompare_num column asc a c ha hc]
    cases asc
    · rw [numCmpInt_notpos_false] at h1 h2 ⊢
      exact jsNumLt_negtrans _ _ _ h1 h2
    · rw [numCmpInt_notpos_true] at h1 h2 ⊢
      exact jsNumLt_negtrans _ _ _ h2 h1
  · rw [sortCompare_str column asc a b ha] at h1
    rw [sortCompare_str column asc b c hb] at h2
    rw [sortCompare_str column asc a c ha]
    cases asc
    · rw [strCmpInt_notpos_false] at h1 h2 ⊢
      exact jsStrLt_negtrans _ _ _ h1 h2
    · rw [strCmpInt_notpos_true] at h1 h2 ⊢
      exact jsStrLt_negtrans _ _ _ h2 h1

/-- Two venues tied with the same representative are never placed after
one another, in either direction, for a uniformly typed triple. -/
theorem tie_not_after (column : String) (d : Bool) (a b v₀ : Venue)
    (hU : (jsIsNumericString (lookupD a column) = true ∧
            jsIsNumericString (lookupD b column) = true ∧
            jsIsNumericString (lookupD v₀ column) = true) ∨
          (jsIsNumericString (lookupD a column) = false ∧
            jsIsNumericString (lookupD b column) = false ∧
            jsIsNumericString (lookupD v₀ column) = false)) :
    sortCompare column true a v₀ = 0 → sortCompare column true b v₀ = 0 →
    jsAfter (sortCompare column d) a b = false := by
  intro h1 h2
  rw [jsAfter, decide_eq_false_iff_not]
  rcases hU with ⟨ha, hb, hv⟩ | ⟨ha, hb, hv⟩
  · rw [sortCompare_num column true a v₀ ha hv, numCmpInt_eq_zero_iff] at h1
    rw [sortCompare_num column true b v₀ hb hv, numCmpInt_eq_zero_iff] at h2
    rw [sortCompare_num column d a b ha hb]
    have hab : jsNumLt (parseFloatOrZero (lookupD a column))
        (parseFloatOrZero (lookupD b column)) = false :=
      jsNumLt_negtrans _ _ _ h1.1 h2.2
    have hba : jsNumLt (parseFloatOrZero (lookupD b column))
        (parseFloatOrZero (lookupD a column)) = false :=
      jsNumLt_negtrans _ _ _ h2.1 h1.2
    cases d
    · exact (numCmpInt_notpos_false _ _).mpr hab
    · exact (numCmpInt_notpos_true _ _).mpr hba
  · rw [sortCompare_str column true a v₀ ha, strCmpInt_eq_zero_iff] at h1
    rw [sortCompare_str column true b v₀ hb, strCmpInt_eq_zero_iff] at h2
    rw [sortCompare_str column d a b ha]
    have hab : jsStrLt (jsToLower (lookupD a column))
        (jsToLower (lookupD b column)) = false :=
      jsStrLt_negtrans _ _ _ h1.1 h2.2
    have hba : jsStrLt (jsToLower (lookupD b column))
        (jsToLower (lookupD a column)) = false :=
      jsStrLt_negtrans _ _ _ h2.1 h1.2
    cases d
    · exact (strCmpInt_notpos_false _ _).mpr hab
    · exact (strCmpInt_notpos_true _ _).mpr hba

/-- Uniform typing of a column transfers along permutations. -/
theorem columnUniform_of_perm (column : String) {l l2 : List Venue}
    (h : l2.Perm l) (H : columnUniform column l) :
    columnUniform column l2 := by
  rcases H with H | H
  · exact Or.inl (fun v hv => H v (h.mem_iff.mp hv))
  · exact Or.inr (fun v hv => H v (h.mem_iff.mp hv))

/-- Under a uniformly typed column, any pair of listed venues is
uniformly typed. -/
theorem columnUniform_pair (column : String) {l : List Venue}
    (H : columnUniform column l) {a b : Venue} (ha : a ∈ l) (hb : b ∈ l) :
    (jsIsNumericString (lookupD a column) = true ∧
      jsIsNumericString (lookupD b column) = true) ∨
    (jsIsNumericString (lookupD a column) = false ∧
      jsIsNumericString (lookupD b column) = false) := by
  rcases H with H | H
  · exact Or.inl ⟨H a ha, H b hb⟩
  · exact Or.inr ⟨H a ha, H b hb⟩

/-- Under a uniformly typed column, any triple of listed venues is
uniformly typed. -/
theorem columnUniform_triple (column : String) {l : List Venue}
    (H : columnUniform column l) {a b c : Venue}
    (ha : a ∈ l) (hb : b ∈ l) (hc : c ∈ l) :
    (jsIsNumericString (lookupD a column) = true ∧
      jsIsNumericString (lookupD b column) = true ∧
      jsIsNumericString (lookupD c column) = true) ∨
    (jsIsNumericString (lookupD a column) = false ∧
      jsIsNumericString (lookupD b column) = false ∧
      jsIsNumericString (lookupD c column) = false) := by
  rcases H with H | H
  · exact Or.inl ⟨H a ha, H b hb, H c hc⟩
  · exact Or.inr ⟨H a ha, H b hb, H c hc⟩

/-! ### Claim C10 -/

/-- C10: the empty string (a missing or blank cell) passes the comparator's
numeric test and is coerced to the number 0, so whenever the other compared
value also passes the numeric test the comparison is the numeric one
against 0, not the case-insensitive string comparison; blank cells
therefore order among numeric values as the number 0. -/
theorem C10_blank_cell_compares_as_zero :
    jsIsNumericString "" = true ∧
    parseFloatOrZero "" = .fin 0 1 ∧
    (∀ (column : String) (asc : Bool) (a b : Venue),
      lookupD a column = "" →
      jsIsNumericString (lookupD b column) = true →
      sortCompare column asc a b =
        numCmpInt asc (.fin 0 1) (parseFloatOrZero (lookupD b column))) ∧
    (∀ (column : String) (asc : Bool) (a b : Venue),
      lookupD b column = "" →
      jsIsNumericString (lookupD a column) = true →
      sortCompare column asc a b =
        numCmpInt asc (parseFloatOrZero (lookupD a column)) (.fin 0 1)) := by
  refine ⟨rfl, rfl, ?_, ?_⟩
  · intro column asc a b ha hb
    unfold sortCompare
    rw [ha, hb]
    rfl
  · intro column asc a b hb ha
    unfold sortCompare
    rw [ha, hb]
    rfl

/-- Witness for C10: a blank cell against the numeric cell "-5" compares
numerically as 0 against -5, so the blank sorts after it ascending (the
string comparison would instead put the empty string first). -/
theorem C10_blank_cell_compares_as_zero_witness :
    sortCompare "X" true [("X", "")] [("X", "-5")] =
      numCmpInt true (.fin 0 1)
        (parseFloatOrZero (lookupD [("X", "-5")] "X")) ∧
    sortCompare "X" true [("X", "")] [("X", "-5")] = 1 ∧
    strCmpInt true (jsToLower "") (jsToLower "-5") = -1 :=
  ⟨C10_blank_cell_compares_as_zero.2.2.1 "X" true [("X", "")] [("X", "-5")]
      rfl (by decide),
   by decide, by decide⟩

/-! ### Claim C7 -/

/-- C7 counterexample: on the column values "2", "10", "1a" the comparator
is not transitive ("2" < "10" numerically, "10" < "1a" and "1a" < "2" as
strings), and sorting twice does not reverse the first order even though
all three sort keys are pairwise non-tied: the first sort leaves
["2", "10", "1a"] and the second produces ["2", "1a", "10"], not the
reverse ["1a", "10", "2"]. -/
theorem C7_counterexample :
    (sortByColumn "X"
        ⟨none, true, [[("X", "2")], [("X", "10")], [("X", "1a")]]⟩).filteredVenues =
      [[("X", "2")], [("X", "10")], [("X", "1a")]] ∧
    List.Pairwise (fun a b => sortCompare "X" true a b ≠ 0)
      (sortByColumn "X"
        ⟨none, true, [[("X", "2")], [("X", "10")], [("X", "1a")]]⟩).filteredVenues ∧
    (sortByColumn "X" (sortByColumn "X"
        ⟨none, true, [[("X", "2")], [("X", "10")], [("X", "1a")]]⟩)).filteredVenues ≠
      ((sortByColumn "X"
        ⟨none, true, [[("X", "2")], [("X", "10")], [("X", "1a")]]⟩).filteredVenues).reverse := by
  exact ⟨by decide, by decide, by decide⟩

/-- C7 amended: provided the sort column is uniformly typed over the listed
venues (all values numeric or none numeric, so the comparator is a total
preorder on them), selecting the same column twice toggles the direction
(and a third selection toggles it back), and the second sort is a
permutation of the first in which elements tied with any listed venue keep
their relative order while the two lists are sorted for the two opposite
directions — hence non-tied elements appear in exactly reversed order. -/
theorem C7_double_sort_reverses (column : String) (st0 : SortState)
    (H : columnUniform column st0.filteredVenues) :
    ((sortByColumn column st0).sortColumn = some column ∧
     (sortByColumn column (sortByColumn column st0)).ascending =
       !(sortByColumn column st0).ascending ∧
     (sortByColumn column (sortByColumn column
       (sortByColumn column st0))).ascending =
       (sortByColumn column st0).ascending) ∧
    ((sortByColumn column (sortByColumn column st0)).filteredVenues).Perm
      ((sortByColumn column st0).filteredVenues) ∧
    (∀ v₀ ∈ (sortByColumn column st0).filteredVenues,
      ((sortByColumn column (sortByColumn column st0)).filteredVenues).filter
        (fun x => decide (sortCompare column true x v₀ = 0)) =
      ((sortByColumn column st0).filteredVenues).filter
        (fun x => decide (sortCompare column true x v₀ = 0))) ∧
    List.Pairwise (fun a b =>
      jsAfter (sortCompare column (sortByColumn column st0).ascending) a b =
        false)
      ((sortByColumn column st0).filteredVenues) ∧
    List.Pairwise (fun a b =>
      jsAfter (sortCompare column
        (sortByColumn column (sortByColumn column st0)).ascending) a b =
        false)
      ((sortByColumn column (sortByColumn column st0)).filteredVenues) := by
  have hperm1 : ((sortByColumn column st0).filteredVenues).Perm
      st0.filteredVenues := sortJs_perm _ _
  have H1 : columnUniform column (sortByColumn column st0).filteredVenues :=
    columnUniform_of_perm column hperm1 H
  have hperm2 : ((sortByColumn column
      (sortByColumn column st0)).filteredVenues).Perm
      ((sortByColumn column st0).filteredVenues) := sortJs_perm _ _
  refine ⟨⟨rfl, ?_, ?_⟩, hperm2, ?_, ?_, ?_⟩
  · simp [sortByColumn]
  · simp [sortByColumn]
  · intro v₀ hv₀
    apply sortJs_filter
    intro a ha b hb hpa hpb
    rw [decide_eq_true_eq] at hpa hpb
    exact tie_not_after column _ a b v₀
      (columnUniform_triple column H1 ha hb hv₀) hpa hpb
  · apply sortJs_pairwise
    · intro a ha b hb
      exact after_asym_pair column _ a b (columnUniform_pair column H ha hb)
    · intro a ha b hb c hc
      exact after_negtrans_triple column _ a b c
        (columnUniform_triple column H ha hb hc)
  · apply sortJs_pairwise
    · intro a ha b hb
      exact after_asym_pair column _ a b (columnUniform_pair column H1 ha hb)
    · intro a ha b hb c hc
      exact after_negtrans_triple column _ a b c
        (columnUniform_triple column H1 ha hb hc)

/-- Witness for C7 at a concrete two-venue list with string values. -/
theorem C7_double_sort_reverses_witness :
    ((sortByColumn "X" ⟨none, true, [[("X", "b")], [("X", "a")]]⟩).sortColumn =
       some "X" ∧
     (sortByColumn "X" (sortByColumn "X"
       ⟨none, true, [[("X", "b")], [("X", "a")]]⟩)).ascending =
       !(sortByColumn "X" ⟨none, true, [[("X", "b")], [("X", "a")]]⟩).ascending ∧
     (sortByColumn "X" (sortByColumn "X" (sortByColumn "X"
       ⟨none, true, [[("X", "b")], [("X", "a")]]⟩))).ascending =
       (sortByColumn "X" ⟨none, true, [[("X", "b")], [("X", "a")]]⟩).ascending) ∧
    ((sortByColumn "X" (sortByColumn "X"
      ⟨none, true, [[("X", "b")], [("X", "a")]]⟩)).filteredVenues).Perm
      ((sortByColumn "X"
        ⟨none, true, [[("X", "b")], [("X", "a")]]⟩).filteredVenues) ∧
    (∀ v₀ ∈ (sortByColumn "X"
        ⟨none, true, [[("X", "b")], [("X", "a")]]⟩).filteredVenues,
      ((sortByColumn "X" (sortByColumn "X"
        ⟨none, true, [[("X", "b")], [("X", "a")]]⟩)).filteredVenues).filter
        (fun x => decide (sortCompare "X" true x v₀ = 0)) =
      ((sortByColumn "X"
        ⟨none, true, [[("X", "b")], [("X", "a")]]⟩).filteredVenues).filter
        (fun x => decide (sortCompare "X" true x v₀ = 0))) ∧
    List.Pairwise (fun a b =>
      jsAfter (sortCompare "X"
        (sortByColumn "X" ⟨none, true, [[("X", "b")], [("X", "a")]]⟩).ascending)
        a b = false)
      ((sortByColumn "X" ⟨none, true, [[("X", "b")], [("X", "a")]]⟩).filteredVenues) ∧
    List.Pairwise (fun a b =>
      jsAfter (sortCompare "X"
        (sortByColumn "X" (sortByColumn "X"
          ⟨none, true, [[("X", "b")], [("X", "a")]]⟩)).ascending) a b = false)
      ((sortByColumn "X" (sortByColumn "X"
        ⟨none, true, [[("X", "b")], [("X", "a")]]⟩)).filteredVenues) :=
  C7_double_sort_reverses "X" ⟨none, true, [[("X", "b")], [("X", "a")]]⟩
    (by decide)

end CRM
